import Mathlib

/-!
Shallow embedding of the diagnostic-payload normalization pipeline of this
repository (the session view with side-channel support in
`src/hooks/useDiagnosticWebSocket.ts`, `src/components/livekit/text-output-panel.tsx`,
and `src/components/session-view.tsx`).

Strings are modelled as `List Char`.  JavaScript's `JSON.parse` / `JSON.stringify`
are modelled by an executable JSON parser/printer over an inductive `Json` type
(numbers keep their source lexeme).  Each regular-expression replacement of the
source is modelled by a dedicated left-to-right scanner that mirrors the
regex's matching semantics (greediness, backtracking where relevant,
case-insensitivity for the `/i`-flagged patterns).  All definitions are
executable and structurally recursive (fuel-indexed where needed), so concrete
runs reduce in the kernel.
-/

set_option maxRecDepth 16000
set_option maxHeartbeats 1600000

namespace DiagFront

/-- Strings of the embedded program. -/
abbrev Str := List Char

/-- Characters of a Lean string literal. -/
def chars (s : String) : Str := s.data

/-- JSON whitespace accepted by `JSON.parse` (ECMA-404): tab, LF, CR, space. -/
def isJsonWs (c : Char) : Bool :=
  c = ' ' || c = '\t' || c = '\n' || c = '\r'

/-- JavaScript `\s` / `String.prototype.trim` whitespace. -/
def isJsWs (c : Char) : Bool :=
  c = ' ' || c = '\t' || c = '\n' || c = '\r' || c = '\x0b' || c = '\x0c' ||
  c = ' ' || c = ' ' ||
  (' ' ≤ c && c ≤ ' ') ||
  c = ' ' || c = ' ' || c = ' ' || c = ' ' ||
  c = '　' || c = '﻿'

/-- The `[a-zA-Z0-9_-]` character class used for YouTube video ids
(ASCII code-point ranges `a`-`z`, `A`-`Z`, `0`-`9`, `_`, `-`). -/
def isIdChar (c : Char) : Bool :=
  (97 ≤ c.toNat && c.toNat ≤ 122) || (65 ≤ c.toNat && c.toNat ≤ 90) ||
  (48 ≤ c.toNat && c.toNat ≤ 57) || c.toNat == 95 || c.toNat == 45

/-- The JavaScript `\w` class: `[A-Za-z0-9_]`. -/
def isWordChar (c : Char) : Bool :=
  (97 ≤ c.toNat && c.toNat ≤ 122) || (65 ≤ c.toNat && c.toNat ≤ 90) ||
  (48 ≤ c.toNat && c.toNat ≤ 57) || c.toNat == 95

/-- ASCII decimal digit. -/
def isDigitCh (c : Char) : Bool := 48 ≤ c.toNat && c.toNat ≤ 57

/-- Case-insensitive character comparison for `/i` patterns: equal characters,
or an ASCII letter pair differing only in case (code points 32 apart). -/
def ciEq (a b : Char) : Bool :=
  a = b || (65 ≤ a.toNat && a.toNat ≤ 90 && a.toNat + 32 = b.toNat) ||
  (65 ≤ b.toNat && b.toNat ≤ 90 && b.toNat + 32 = a.toNat)

/-- `String.prototype.trim`. -/
def jsTrim (s : Str) : Str :=
  ((s.dropWhile isJsWs).reverse.dropWhile isJsWs).reverse

/-- Does `pat` occur as a contiguous substring of `s`?  (Anchored test at
every suffix, as a regex engine scans.) -/
def occurs (pat : Str) : Str → Bool
  | [] => pat.isPrefixOf ([] : Str)
  | c :: rest => pat.isPrefixOf (c :: rest) || occurs pat rest

/-- Split `s` at the first occurrence of `pat`: the part before and the part
after the occurrence.  Models a lazy group followed by the literal `pat`. -/
def splitOnFirst (pat : Str) : Str → Option (Str × Str)
  | [] => if pat.isPrefixOf ([] : Str) then some ([], []) else none
  | c :: rest =>
    if pat.isPrefixOf (c :: rest) then some ([], (c :: rest).drop pat.length)
    else match splitOnFirst pat rest with
      | some (a, b) => some (c :: a, b)
      | none => none

/-- Case-insensitive literal match: strip `pat` (up to case) from the front of
`s`, returning the remainder. -/
def dropPreCI : Str → Str → Option Str
  | [], s => some s
  | _ :: _, [] => none
  | p :: ps, c :: cs => if ciEq p c then dropPreCI ps cs else none

/-- Case-sensitive literal match returning the remainder. -/
def dropPre : Str → Str → Option Str
  | [], s => some s
  | _ :: _, [] => none
  | p :: ps, c :: cs => if p = c then dropPre ps cs else none

/-! ## JSON values

`Json` models the JavaScript values reachable from `JSON.parse`.  A number
keeps its source lexeme (no claim of this development depends on numeric
normalization).  Arrays and object member lists are mutual inductives so that
all recursions stay structural (hence kernel-reducible). -/

mutual

inductive Json where
  | null : Json
  | bool (b : Bool) : Json
  | num (lexeme : Str) : Json
  | str (s : Str) : Json
  | arr (elems : JArr) : Json
  | obj (members : JMems) : Json

inductive JArr where
  | nil : JArr
  | cons (hd : Json) (tl : JArr) : JArr

inductive JMems where
  | nil : JMems
  | cons (key : Str) (val : Json) (tl : JMems) : JMems

end

mutual

def decEqJson : (a b : Json) → Decidable (a = b)
  | .null, .null => isTrue rfl
  | .bool a, .bool b =>
    match decEq a b with
    | isTrue h => isTrue (by rw [h])
    | isFalse h => isFalse (by intro he; cases he; exact h rfl)
  | .num a, .num b =>
    match decEq a b with
    | isTrue h => isTrue (by rw [h])
    | isFalse h => isFalse (by intro he; cases he; exact h rfl)
  | .str a, .str b =>
    match decEq a b with
    | isTrue h => isTrue (by rw [h])
    | isFalse h => isFalse (by intro he; cases he; exact h rfl)
  | .arr a, .arr b =>
    match decEqJArr a b with
    | isTrue h => isTrue (by rw [h])
    | isFalse h => isFalse (by intro he; cases he; exact h rfl)
  | .obj a, .obj b =>
    match decEqJMems a b with
    | isTrue h => isTrue (by rw [h])
    | isFalse h => isFalse (by intro he; cases he; exact h rfl)
  | .null, .bool _ => isFalse nofun
  | .null, .num _ => isFalse nofun
  | .null, .str _ => isFalse nofun
  | .null, .arr _ => isFalse nofun
  | .null, .obj _ => isFalse nofun
  | .bool _, .null => isFalse nofun
  | .bool _, .num _ => isFalse nofun
  | .bool _, .str _ => isFalse nofun
  | .bool _, .arr _ => isFalse nofun
  | .bool _, .obj _ => isFalse nofun
  | .num _, .null => isFalse nofun
  | .num _, .bool _ => isFalse nofun
  | .num _, .str _ => isFalse nofun
  | .num _, .arr _ => isFalse nofun
  | .num _, .obj _ => isFalse nofun
  | .str _, .null => isFalse nofun
  | .str _, .bool _ => isFalse nofun
  | .str _, .num _ => isFalse nofun
  | .str _, .arr _ => isFalse nofun
  | .str _, .obj _ => isFalse nofun
  | .arr _, .null => isFalse nofun
  | .arr _, .bool _ => isFalse nofun
  | .arr _, .num _ => isFalse nofun
  | .arr _, .str _ => isFalse nofun
  | .arr _, .obj _ => isFalse nofun
  | .obj _, .null => isFalse nofun
  | .obj _, .bool _ => isFalse nofun
  | .obj _, .num _ => isFalse nofun
  | .obj _, .str _ => isFalse nofun
  | .obj _, .arr _ => isFalse nofun

def decEqJArr : (a b : JArr) → Decidable (a = b)
  | .nil, .nil => isTrue rfl
  | .nil, .cons _ _ => isFalse nofun
  | .cons _ _, .nil => isFalse nofun
  | .cons h t, .cons h' t' =>
    match decEqJson h h', decEqJArr t t' with
    | isTrue e1, isTrue e2 => isTrue (by rw [e1, e2])
    | isFalse e1, _ => isFalse (by intro he; cases he; exact e1 rfl)
    | _, isFalse e2 => isFalse (by intro he; cases he; exact e2 rfl)

def decEqJMems : (a b : JMems) → Decidable (a = b)
  | .nil, .nil => isTrue rfl
  | .nil, .cons _ _ _ => isFalse nofun
  | .cons _ _ _, .nil => isFalse nofun
  | .cons k v t, .cons k' v' t' =>
    match decEq k k', decEqJson v v', decEqJMems t t' with
    | isTrue e0, isTrue e1, isTrue e2 => isTrue (by rw [e0, e1, e2])
    | isFalse e0, _, _ => isFalse (by intro he; cases he; exact e0 rfl)
    | _, isFalse e1, _ => isFalse (by intro he; cases he; exact e1 rfl)
    | _, _, isFalse e2 => isFalse (by intro he; cases he; exact e2 rfl)

end

instance : DecidableEq Json := decEqJson

instance : DecidableEq JArr := decEqJArr

instance : DecidableEq JMems := decEqJMems

/-- Convert an embedded JSON array to a Lean list. -/
def JArr.toList : JArr → List Json
  | .nil => []
  | .cons h t => h :: t.toList

/-- Build an embedded JSON array from a Lean list. -/
def JArr.ofList : List Json → JArr
  | [] => .nil
  | h :: t => .cons h (JArr.ofList t)

/-- Is the decimal value of a number lexeme zero (ignoring the exponent)? -/
def numIsZero (lx : Str) : Bool :=
  (lx.takeWhile (fun c => c ≠ 'e' && c ≠ 'E')).all
    (fun c => !(isDigitCh c) || c = '0')

/-- JavaScript truthiness of a value. -/
def jsTruthy : Json → Bool
  | .null => false
  | .bool b => b
  | .num lx => !(numIsZero lx)
  | .str s => !s.isEmpty
  | .arr _ => true
  | .obj _ => true

/-- Look up a key in an object member list. -/
def memsGet : JMems → Str → Option Json
  | .nil, _ => none
  | .cons k' v t, k => if k' = k then some v else memsGet t k

/-- Property access `v[k]`: `some` for own properties of an object, `none`
(i.e. `undefined`) otherwise. -/
def objGet : Json → Str → Option Json
  | .obj ms, k => memsGet ms k
  | _, _ => none

/-- Truthiness of a possibly-`undefined` value. -/
def jsTruthyOpt : Option Json → Bool
  | some j => jsTruthy j
  | none => false

/-- `typeof v === 'string'` projection. -/
def strVal? : Json → Option Str
  | .str s => some s
  | _ => none

/-- `!!v && typeof v === 'object'` (arrays included), the guard of the
sanitizer's first filter. -/
def jsIsObj : Json → Bool
  | .obj _ => true
  | .arr _ => true
  | _ => false

/-! ## JSON.parse -/

/-- Skip JSON whitespace. -/
def skipWs (s : Str) : Str := s.dropWhile isJsonWs

/-- Hex digit value. -/
def hexVal (c : Char) : Option Nat :=
  let n := c.toNat
  if 48 ≤ n && n ≤ 57 then some (n - 48)
  else if 97 ≤ n && n ≤ 102 then some (n - 87)
  else if 65 ≤ n && n ≤ 70 then some (n - 55)
  else none

/-- Parse the body of a JSON string (opening quote already consumed). -/
def pStr : Str → Option (Str × Str)
  | [] => none
  | '"' :: rest => some ([], rest)
  | '\\' :: e :: rest =>
    match e with
    | '"' => (pStr rest).map (fun r => ('"' :: r.1, r.2))
    | '\\' => (pStr rest).map (fun r => ('\\' :: r.1, r.2))
    | '/' => (pStr rest).map (fun r => ('/' :: r.1, r.2))
    | 'b' => (pStr rest).map (fun r => ('\x08' :: r.1, r.2))
    | 'f' => (pStr rest).map (fun r => ('\x0c' :: r.1, r.2))
    | 'n' => (pStr rest).map (fun r => ('\n' :: r.1, r.2))
    | 'r' => (pStr rest).map (fun r => ('\r' :: r.1, r.2))
    | 't' => (pStr rest).map (fun r => ('\t' :: r.1, r.2))
    | 'u' =>
      match rest with
      | h1 :: h2 :: h3 :: h4 :: rest' =>
        match hexVal h1, hexVal h2, hexVal h3, hexVal h4 with
        | some a, some b, some c, some d =>
          (pStr rest').map
            (fun r => (Char.ofNat (((a * 16 + b) * 16 + c) * 16 + d) :: r.1, r.2))
        | _, _, _, _ => none
      | _ => none
    | _ => none
  | c :: rest =>
    if c.toNat < 0x20 then none
    else (pStr rest).map (fun r => (c :: r.1, r.2))

/-- Fraction and exponent tail of a JSON number; `pre` is the sign and integer
part already read. -/
def pNumTail (pre : Str) (s2 : Str) : Option (Str × Str) :=
  let fracBad : Bool := match s2 with
    | '.' :: r => (r.takeWhile isDigitCh).isEmpty
    | _ => false
  if fracBad then none
  else
    let (fracChars, s3) : Str × Str :=
      match s2 with
      | '.' :: r => ('.' :: r.takeWhile isDigitCh, r.dropWhile isDigitCh)
      | _ => ([], s2)
    match s3 with
    | e :: r =>
      if e = 'e' || e = 'E' then
        let (sign, r2) : Str × Str :=
          match r with
          | '+' :: rr => (['+'], rr)
          | '-' :: rr => (['-'], rr)
          | _ => ([], r)
        let ds := r2.takeWhile isDigitCh
        if ds.isEmpty then none
        else some (pre ++ fracChars ++ (e :: sign ++ ds), r2.dropWhile isDigitCh)
      else some (pre ++ fracChars, s3)
    | [] => some (pre ++ fracChars, s3)

/-- Parse a JSON number, returning its lexeme. -/
def pNum (s : Str) : Option (Str × Str) :=
  let (neg, s1) : Str × Str :=
    match s with
    | '-' :: r => (['-'], r)
    | _ => ([], s)
  match s1 with
  | c :: _ =>
    if c = '0' then pNumTail (neg ++ ['0']) (s1.drop 1)
    else if isDigitCh c then
      pNumTail (neg ++ s1.takeWhile isDigitCh) (s1.dropWhile isDigitCh)
    else none
  | [] => none

/-- Insert an object member; a duplicate key overwrites the earlier value in
place, as in JavaScript. -/
def insertMem : JMems → Str → Json → JMems
  | .nil, k, v => .cons k v .nil
  | .cons k' v' rest, k, v =>
    if k' = k then .cons k' v rest else .cons k' v' (insertMem rest k v)

mutual

/-- Parse one JSON value (fuel-indexed; the fuel only bounds nesting). -/
def pVal : Nat → Str → Option (Json × Str)
  | 0, _ => none
  | fuel + 1, s =>
    match skipWs s with
    | '"' :: rest => (pStr rest).map (fun r => (Json.str r.1, r.2))
    | '[' :: rest => pArrStart fuel (skipWs rest)
    | '\x7b' :: rest => pObjStart fuel (skipWs rest)
    | 't' :: rest =>
      match dropPre (chars "rue") rest with
      | some r => some (Json.bool true, r)
      | none => none
    | 'f' :: rest =>
      match dropPre (chars "alse") rest with
      | some r => some (Json.bool false, r)
      | none => none
    | 'n' :: rest =>
      match dropPre (chars "ull") rest with
      | some r => some (Json.null, r)
      | none => none
    | s' => (pNum s').map (fun r => (Json.num r.1, r.2))

/-- Parse array contents (opening bracket and following whitespace consumed). -/
def pArrStart : Nat → Str → Option (Json × Str)
  | 0, _ => none
  | fuel + 1, s =>
    match s with
    | ']' :: rest => some (Json.arr .nil, rest)
    | _ => pElems fuel s []

/-- Parse the remaining elements of a non-empty array. -/
def pElems : Nat → Str → List Json → Option (Json × Str)
  | 0, _, _ => none
  | fuel + 1, s, acc =>
    match pVal fuel s with
    | some (j, rest) =>
      match skipWs rest with
      | ',' :: rest2 => pElems fuel rest2 (acc ++ [j])
      | ']' :: rest2 => some (Json.arr (JArr.ofList (acc ++ [j])), rest2)
      | _ => none
    | none => none

/-- Parse object contents (opening brace and following whitespace consumed). -/
def pObjStart : Nat → Str → Option (Json × Str)
  | 0, _ => none
  | fuel + 1, s =>
    match s with
    | '\x7d' :: rest => some (Json.obj .nil, rest)
    | _ => pMems fuel s .nil

/-- Parse the remaining members of a non-empty object. -/
def pMems : Nat → Str → JMems → Option (Json × Str)
  | 0, _, _ => none
  | fuel + 1, s, acc =>
    match skipWs s with
    | '"' :: rest =>
      match pStr rest with
      | some (k, rest2) =>
        match skipWs rest2 with
        | ':' :: rest3 =>
          match pVal fuel rest3 with
          | some (v, rest4) =>
            match skipWs rest4 with
            | ',' :: rest5 => pMems fuel rest5 (insertMem acc k v)
            | '\x7d' :: rest5 => some (Json.obj (insertMem acc k v), rest5)
            | _ => none
          | none => none
        | _ => none
      | none => none
    | _ => none

end

/-- `JSON.parse`: parse one value, allow trailing whitespace only. -/
def parseJson (s : Str) : Option Json :=
  match pVal (4 * s.length + 4) s with
  | some (j, rest) => if (skipWs rest).isEmpty then some j else none
  | none => none

/-! ## JSON.stringify -/

/-- Lower-case hex digit. -/
def hexDigit (n : Nat) : Char :=
  if n < 10 then Char.ofNat ('0'.toNat + n) else Char.ofNat ('a'.toNat + n - 10)

/-- Escape one character as `JSON.stringify` does. -/
def escChar (c : Char) : Str :=
  if c = '"' then ['\\', '"']
  else if c = '\\' then ['\\', '\\']
  else if c = '\x08' then ['\\', 'b']
  else if c = '\t' then ['\\', 't']
  else if c = '\n' then ['\\', 'n']
  else if c = '\x0c' then ['\\', 'f']
  else if c = '\r' then ['\\', 'r']
  else if c.toNat < 0x20 then
    ['\\', 'u', '0', '0', hexDigit (c.toNat / 16), hexDigit (c.toNat % 16)]
  else [c]

/-- Quote and escape a string as `JSON.stringify` does. -/
def escStr (s : Str) : Str := '"' :: (s.map escChar).flatten ++ ['"']

mutual

/-- `JSON.stringify` of a value. -/
def strJson : Json → Str
  | .null => chars "null"
  | .bool true => chars "true"
  | .bool false => chars "false"
  | .num lx => lx
  | .str s => escStr s
  | .arr l => '[' :: strElems l ++ [']']
  | .obj ms => '\x7b' :: strMems ms ++ ['\x7d']

/-- Comma-separated stringified array elements. -/
def strElems : JArr → Str
  | .nil => []
  | .cons j .nil => strJson j
  | .cons j rest => strJson j ++ ',' :: strElems rest

/-- Comma-separated stringified object members. -/
def strMems : JMems → Str
  | .nil => []
  | .cons k v .nil => escStr k ++ ':' :: strJson v
  | .cons k v rest => escStr k ++ ':' :: strJson v ++ ',' :: strMems rest

end

mutual

/-- JavaScript string conversion (template-literal interpolation). -/
def jsToStr : Json → Str
  | .null => chars "null"
  | .bool true => chars "true"
  | .bool false => chars "false"
  | .num lx => lx
  | .str s => s
  | .obj _ => chars "[object Object]"
  | .arr l => jsArrStr l

/-- `Array.prototype.toString`: comma-joined elements, `null` rendered empty. -/
def jsArrStr : JArr → Str
  | .nil => []
  | .cons j .nil =>
    (match j with
     | .null => []
     | _ => jsToStr j)
  | .cons j rest =>
    (match j with
     | .null => []
     | _ => jsToStr j) ++ ',' :: jsArrStr rest

end


/-! ## Message model and the normalizer (`getLatestTextContent`)

`ChatMsg` models a `ReceivedChatMessage`: a sender-locality flag, the React
key `id`, and the `message` value (checked with `typeof` in the source, hence
modelled as an arbitrary `Json` value whose string case is `Json.str`). -/

structure ChatMsg where
  isLocal : Bool
  id : Nat
  message : Json
deriving DecidableEq

/-- The `TEXT_ONLY:` marker. -/
def textOnlyTag : Str := chars "TEXT_ONLY:"

/-- The `VOICE:` marker. -/
def voiceTag : Str := chars "VOICE:"

/-- The `|||TEXT:` separator. -/
def sepTag : Str := chars "|||TEXT:"

/-- Key `content`. -/
def contentKey : Str := chars "content"

/-- Key `text_output`. -/
def textOutputKey : Str := chars "text_output"

/-- Key `voice_output`. -/
def voiceOutputKey : Str := chars "voice_output"

/-- Key `web_sources`. -/
def webSourcesKey : Str := chars "web_sources"

/-- Key `youtube_videos`. -/
def youtubeVideosKey : Str := chars "youtube_videos"

/-- The assistant (remote) messages whose `message` is a string, in stream
order: `messages.filter((m) => !m.from?.isLocal && typeof m.message === 'string')`. -/
def assistantRaws (messages : List ChatMsg) : List Str :=
  (messages.filter (fun m => !m.isLocal && (strVal? m.message).isSome)).filterMap
    (fun m => strVal? m.message)

/-- `parsed.content` when it is a string (`typeof parsed.content === 'string'`). -/
def contentStrOf (j : Json) : Option Str :=
  match objGet j contentKey with
  | some (.str s) => some s
  | _ => none

/-- Decompose `raw` by the pattern `VOICE:<lazy>|||TEXT:<rest>`: the lazy
first group splits at the first `|||TEXT:` occurrence. -/
def voiceDecomp (raw : Str) : Option (Str × Str) :=
  if voiceTag.isPrefixOf raw then
    match splitOnFirst sepTag (raw.drop voiceTag.length) with
    | some (v, t) => some (v, t)
    | none => none
  else none

/-- Step 3 of `getLatestTextContent` (side-channel session view): scan the
newest-first assistant messages for a `TEXT_ONLY:` chunk. -/
def textOnlyScan : List Str → Option Str
  | [] => none
  | raw :: rest =>
    if textOnlyTag.isPrefixOf raw then
      let payload := jsTrim (raw.drop textOnlyTag.length)
      match parseJson payload with
      | some parsed =>
        if jsTruthy parsed && (contentStrOf parsed).isSome then some (strJson parsed)
        else textOnlyScan rest
      | none => some payload
    else textOnlyScan rest

/-- Step 4: scan newest-first for the `VOICE:...|||TEXT:` format. -/
def voiceScan : List Str → Option Str
  | [] => none
  | raw :: rest =>
    match voiceDecomp raw with
    | some (_, textSegment) =>
      match parseJson textSegment with
      | some parsedText =>
        if jsTruthy parsedText && (contentStrOf parsedText).isSome then
          some (strJson parsedText)
        else voiceScan rest
      | none => some textSegment
    | none => voiceScan rest

/-- Step 5: scan newest-first for legacy direct structured JSON with a
`text_output` wrapper. -/
def legacyScan : List Str → Option Str
  | [] => none
  | raw :: rest =>
    match parseJson raw with
    | some parsed =>
      if jsTruthy parsed then
        match objGet parsed textOutputKey with
        | some tOut =>
          if jsTruthy tOut && (contentStrOf tOut).isSome then some (strJson tOut)
          else legacyScan rest
        | none => legacyScan rest
      else legacyScan rest
    | none => legacyScan rest

/-- `getLatestTextContent` of the side-channel session view
(`src/hooks/useDiagnosticWebSocket.ts`, session-view part, lines 404-468). -/
def getLatestTextContent (diagnosticTextPayload : Str) (messages : List ChatMsg) : Str :=
  if !diagnosticTextPayload.isEmpty then diagnosticTextPayload
  else
    let raws := (assistantRaws messages).reverse
    match textOnlyScan raws with
    | some r => r
    | none =>
      match voiceScan raws with
      | some r => r
      | none =>
        match legacyScan raws with
        | some r => r
        | none => []

/-- The per-message transform of `displayMessages`: collapse `VOICE|||TEXT`
to the trimmed voice portion, or a legacy full JSON structure to its
`voice_output`. -/
def displayTransform (m : ChatMsg) : ChatMsg :=
  match strVal? m.message with
  | some s =>
    (match voiceDecomp s with
     | some (v, _) => { m with message := Json.str (jsTrim v) }
     | none =>
       match parseJson s with
       | some parsed =>
         if jsTruthy parsed && jsTruthyOpt (objGet parsed voiceOutputKey) &&
            jsTruthyOpt (objGet parsed textOutputKey) then
           { m with message := (objGet parsed voiceOutputKey).getD Json.null }
         else m
       | none => m)
  | none => m

/-- Does the message start with `TEXT_ONLY:` (string messages only)? -/
def isTextOnlyMsg (m : ChatMsg) : Bool :=
  match strVal? m.message with
  | some s => textOnlyTag.isPrefixOf s
  | none => false

/-- `displayMessages` of the side-channel session view: drop raw diagnostic
`TEXT_ONLY:` chunks, then map the display transform. -/
def displayMessages (messages : List ChatMsg) : List ChatMsg :=
  (messages.filter (fun m => !isTextOnlyMsg m)).map displayTransform

/-! ## The diagnostic panel's parser (`text-output-panel.tsx`) -/

/-- The canonical shape handed to the panel renderer. -/
structure PanelData where
  mainContent : Str
  webSources : List Json
  youtubeVideos : List Json
  structured : Bool
deriving DecidableEq

/-- `Array.isArray(v) ? v : []`. -/
def arrElems : Option Json → List Json
  | some (.arr l) => l.toList
  | _ => []

/-- `parseStructured`: accept a structured `content` object or the legacy
`text_output` envelope. -/
def parseStructured (raw : Str) : Option PanelData :=
  match parseJson raw with
  | none => none
  | some parsed =>
    if jsTruthy parsed && jsTruthyOpt (objGet parsed contentKey) &&
       (contentStrOf parsed).isSome then
      some ⟨(contentStrOf parsed).getD [],
            arrElems (objGet parsed webSourcesKey),
            arrElems (objGet parsed youtubeVideosKey), true⟩
    else
      match objGet parsed textOutputKey with
      | some tOut =>
        if jsTruthy parsed && jsTruthy tOut && (contentStrOf tOut).isSome then
          some ⟨(contentStrOf tOut).getD [],
                arrElems (objGet tOut webSourcesKey),
                arrElems (objGet tOut youtubeVideosKey), true⟩
        else none
      | none => none

/-- `legacyParse`: degrade to unstructured plain content. -/
def legacyParse (content : Str) : PanelData :=
  if content.isEmpty then ⟨[], [], [], false⟩ else ⟨content, [], [], false⟩

/-- `parseStructured(textContent) || legacyParse(textContent)`. -/
def panelParse (textContent : Str) : PanelData :=
  (parseStructured textContent).getD (legacyParse textContent)

/-! ## The claimed and the amended decoding ladders

`claimLadder` follows the words of claim C1: each rule selects the newest
assistant message whose fragment parses successfully with a string `content`
(resp. `text_output.content`).  `amendedLadder` differs only in that a message
whose `TEXT_ONLY:` / `VOICE|||TEXT` fragment fails to parse also fires its
rule, returning the raw fragment. -/

/-- Amended rule 1 guard: `TEXT_ONLY:` prefix, and the trimmed fragment either
fails to parse or parses to a truthy value with string `content`. -/
def textOnlyHit (raw : Str) : Bool :=
  textOnlyTag.isPrefixOf raw &&
  (match parseJson (jsTrim (raw.drop textOnlyTag.length)) with
   | none => true
   | some p => jsTruthy p && (contentStrOf p).isSome)

/-- Amended rule 1 output. -/
def textOnlyOut (raw : Str) : Str :=
  let payload := jsTrim (raw.drop textOnlyTag.length)
  match parseJson payload with
  | none => payload
  | some p => strJson p

/-- Amended rule 2 guard. -/
def voiceHit (raw : Str) : Bool :=
  match voiceDecomp raw with
  | some (_, t) =>
    (match parseJson t with
     | none => true
     | some p => jsTruthy p && (contentStrOf p).isSome)
  | none => false

/-- Amended rule 2 output. -/
def voiceOut (raw : Str) : Str :=
  match voiceDecomp raw with
  | some (_, t) =>
    (match parseJson t with
     | none => t
     | some p => strJson p)
  | none => []

/-- Rule 3 guard (same in the claimed and amended ladders). -/
def legacyHit (raw : Str) : Bool :=
  match parseJson raw with
  | some p =>
    jsTruthy p &&
    (match objGet p textOutputKey with
     | some tOut => jsTruthy tOut && (contentStrOf tOut).isSome
     | none => false)
  | none => false

/-- Rule 3 output. -/
def legacyOut (raw : Str) : Str :=
  match parseJson raw with
  | some p =>
    (match objGet p textOutputKey with
     | some tOut => strJson tOut
     | none => [])
  | none => []

/-- The normalizer as amended: first-match-wins over newest-first messages,
where a rule also fires on a parse failure of its extracted fragment. -/
def amendedLadder (diagnosticTextPayload : Str) (messages : List ChatMsg) : Str :=
  if !diagnosticTextPayload.isEmpty then diagnosticTextPayload
  else
    let raws := (assistantRaws messages).reverse
    match raws.find? textOnlyHit with
    | some raw => textOnlyOut raw
    | none =>
      match raws.find? voiceHit with
      | some raw => voiceOut raw
      | none =>
        match raws.find? legacyHit with
        | some raw => legacyOut raw
        | none => []

/-- Claimed rule 1 guard: newest `TEXT_ONLY:` message whose JSON has a string
`content` field. -/
def claimTextOnlyHit (raw : Str) : Bool :=
  textOnlyTag.isPrefixOf raw &&
  (match parseJson (jsTrim (raw.drop textOnlyTag.length)) with
   | none => false
   | some p => (contentStrOf p).isSome)

/-- Claimed rule 1 output. -/
def claimTextOnlyOut (raw : Str) : Str :=
  match parseJson (jsTrim (raw.drop textOnlyTag.length)) with
  | none => []
  | some p => strJson p

/-- Claimed rule 2 guard: newest `VOICE|||TEXT` message whose second segment
parses to a value with a string `content`. -/
def claimVoiceHit (raw : Str) : Bool :=
  match voiceDecomp raw with
  | some (_, t) =>
    (match parseJson t with
     | none => false
     | some p => (contentStrOf p).isSome)
  | none => false

/-- Claimed rule 2 output. -/
def claimVoiceOut (raw : Str) : Str :=
  match voiceDecomp raw with
  | some (_, t) =>
    (match parseJson t with
     | none => []
     | some p => strJson p)
  | none => []

/-- The decoding precedence exactly as claim C1 words it. -/
def claimLadder (diagnosticTextPayload : Str) (messages : List ChatMsg) : Str :=
  if !diagnosticTextPayload.isEmpty then diagnosticTextPayload
  else
    let raws := (assistantRaws messages).reverse
    match raws.find? claimTextOnlyHit with
    | some raw => claimTextOnlyOut raw
    | none =>
      match raws.find? claimVoiceHit with
      | some raw => claimVoiceOut raw
      | none =>
        match raws.find? legacyHit with
        | some raw => legacyOut raw
        | none => []

/-- An assistant chat message carrying the string `s`. -/
def assistantMsg (s : Str) : ChatMsg := ⟨false, 0, Json.str s⟩

/-! ## Regex-replacement scanner

`replaceAll tryM s` models `s.replace(/pat/g, tpl)`: scan left to right; at
each position either the matcher fires, emitting its replacement and resuming
after the consumed text, or the character is copied.  Every matcher consumes
at least one character, so `s.length` is adequate fuel. -/

/-- Fuel-indexed global-replacement scanner. -/
def replaceAllF (tryM : Str → Option (Str × Str)) : Nat → Str → Str
  | 0, s => s
  | _ + 1, [] => []
  | fuel + 1, c :: rest =>
    match tryM (c :: rest) with
    | some (rep, after) => rep ++ replaceAllF tryM fuel after
    | none => c :: replaceAllF tryM fuel rest

/-- `String.prototype.replace` with a global pattern. -/
def replaceAll (tryM : Str → Option (Str × Str)) (s : Str) : Str :=
  replaceAllF tryM s.length s

/-- Matcher for a literal pattern with a fixed replacement. -/
def tryLit (pat rep : Str) (s : Str) : Option (Str × Str) :=
  if pat.isPrefixOf s then some (rep, s.drop pat.length) else none

/-! ## `cleanString` (video sanitizer, `text-output-panel.tsx` lines 91-110) -/

/-- Matcher for `<[^>]+>` (an HTML tag), replaced by a space. -/
def tryTag : Str → Option (Str × Str)
  | '<' :: rest =>
    let mid := rest.takeWhile (fun c => c != '>')
    if mid.isEmpty then none
    else
      match rest.dropWhile (fun c => c != '>') with
      | '>' :: after => some ([' '], after)
      | _ => none
  | _ => none

/-- Matcher for an attribute pattern `name="[^"]*"`, removed. -/
def tryAttr (pre : Str) (s : Str) : Option (Str × Str) :=
  match dropPre pre s with
  | some r =>
    (match r.dropWhile (fun c => c != '"') with
     | '"' :: after => some ([], after)
     | _ => none)
  | none => none

/-- The camera-emoji characters exactly as they appear in the source file. -/
def camMark : Str := chars "ðŸŽ¥"

/-- The literal `Watch Diagnostic Video`. -/
def wdvMark : Str := chars "Watch Diagnostic Video"

/-- Matcher for the emoji text pattern `<cam>\s*Watch Diagnostic Video`, removed. -/
def tryCam (s : Str) : Option (Str × Str) :=
  match dropPre camMark s with
  | some r =>
    (match dropPre wdvMark (r.dropWhile isJsWs) with
     | some after => some ([], after)
     | none => none)
  | none => none

/-- Matcher for `\s+`, collapsed to one space. -/
def tryWsRun : Str → Option (Str × Str)
  | c :: rest => if isJsWs c then some ([' '], rest.dropWhile isJsWs) else none
  | [] => none

/-- `target="_blank"` literal. -/
def targetBlankLit : Str := chars "target=\"_blank\""

/-- Second alternative of the case-sensitive URL extractor: `youtu.be/<id>`;
returns the remainder after the id run. -/
def csUrlAlt2 (r3 : Str) : Option Str :=
  match dropPre (chars "youtu.be/") r3 with
  | some r4 =>
    if (r4.takeWhile isIdChar).isEmpty then none else some (r4.dropWhile isIdChar)
  | none => none

/-- Alternation `youtube.com/watch?v=<id> | youtu.be/<id>` (case-sensitive). -/
def csUrlAlt (r3 : Str) : Option Str :=
  match dropPre (chars "youtube.com/watch?v=") r3 with
  | some r4 =>
    if (r4.takeWhile isIdChar).isEmpty then csUrlAlt2 r3
    else some (r4.dropWhile isIdChar)
  | none => csUrlAlt2 r3

/-- Optional `www.` (greedy, with backtracking) before the host alternation. -/
def csUrlAfterScheme (r2 : Str) : Option Str :=
  match dropPre (chars "www.") r2 with
  | some r3 =>
    (match csUrlAlt r3 with
     | some rest => some rest
     | none => csUrlAlt r2)
  | none => csUrlAlt r2

/-- `https?:\/\/` (case-sensitive), returning the remainder. -/
def csScheme (s : Str) : Option Str :=
  match dropPre (chars "http") s with
  | none => none
  | some r0 =>
    match r0 with
    | 's' :: rr =>
      (match dropPre (chars "://") rr with
       | some r2 => some r2
       | none =>
         match dropPre (chars "://") r0 with
         | some r2 => some r2
         | none => none)
    | _ =>
      (match dropPre (chars "://") r0 with
       | some r2 => some r2
       | none => none)

/-- Match the extraction regex
`https?:\/\/(?:www\.)?(?:youtube\.com\/watch\?v=[a-zA-Z0-9_-]+|youtu\.be\/[a-zA-Z0-9_-]+)`
anchored at the start of `s`; returns the remainder after the match. -/
def csUrlAt (s : Str) : Option Str :=
  match csScheme s with
  | some r2 => csUrlAfterScheme r2
  | none => none

/-- First match of the extraction regex anywhere in `s` (the matched text). -/
def findFirstUrl : Str → Option Str
  | [] => none
  | c :: rest =>
    match csUrlAt (c :: rest) with
    | some remain => some ((c :: rest).take ((c :: rest).length - remain.length))
    | none => findFirstUrl rest

/-- The body of `cleanString` for an actual string input. -/
def cleanChars (s : Str) : Str :=
  let cleaned :=
    jsTrim (replaceAll tryWsRun
      (replaceAll tryCam
        (replaceAll (tryAttr (chars "alt=\""))
          (replaceAll (tryAttr (chars "class=\""))
            (replaceAll (tryAttr (chars "rel=\""))
              (replaceAll (tryLit targetBlankLit [])
                (replaceAll tryTag s)))))))
  match findFirstUrl cleaned with
  | some u => u
  | none => cleaned

/-- `cleanString` on a JavaScript value: non-strings clean to the empty string. -/
def cleanStringJ : Json → Str
  | .str s => cleanChars s
  | _ => []

/-- `cleanString` on a possibly-`undefined` value. -/
def cleanString : Option Json → Str
  | some j => cleanStringJ j
  | none => []

/-! ## `sanitizeVideos` (`text-output-panel.tsx` lines 83-159) -/

/-- Key `url`. -/
def urlKey : Str := chars "url"

/-- Key `title`. -/
def titleKey : Str := chars "title"

/-- Key `video_id`. -/
def videoIdKey : Str := chars "video_id"

/-- Key `thumbnail`. -/
def thumbKey : Str := chars "thumbnail"

/-- The default title `Diagnostic Video`. -/
def dvLit : Str := chars "Diagnostic Video"

/-- Thumbnail URL prefix `https://img.youtube.com/vi/`. -/
def viPre : Str := chars "https://img.youtube.com/vi/"

/-- Thumbnail URL suffix `/mqdefault.jpg`. -/
def viSuf : Str := chars "/mqdefault.jpg"

/-- The fallback thumbnail URL. -/
def defaultThumb : Str := chars "https://img.youtube.com/vi/default/mqdefault.jpg"

/-- The host substring `youtube` required by the validity filter. -/
def ytHostLit : Str := chars "youtube"

/-- JavaScript `a || b` for a possibly-`undefined` left operand. -/
def jsOrStr (v : Option Json) (dflt : Json) : Json :=
  match v with
  | some j => if jsTruthy j then j else dflt
  | none => dflt

/-- Second alternative of `/(?:v=|youtu\.be\/)([a-zA-Z0-9_-]+)/` anchored at `s`. -/
def idMatchAt2 (s : Str) : Option Str :=
  match dropPre (chars "youtu.be/") s with
  | some r =>
    let ids := r.takeWhile isIdChar
    if ids.isEmpty then none else some ids
  | none => none

/-- `/(?:v=|youtu\.be\/)([a-zA-Z0-9_-]+)/` anchored at `s`: the captured id. -/
def idMatchAt (s : Str) : Option Str :=
  match dropPre (chars "v=") s with
  | some r =>
    let ids := r.takeWhile isIdChar
    if ids.isEmpty then idMatchAt2 s else some ids
  | none => idMatchAt2 s

/-- First match of the id-extraction regex anywhere in the URL. -/
def idMatch : Str → Option Str
  | [] => none
  | c :: rest =>
    match idMatchAt (c :: rest) with
    | some g => some g
    | none => idMatch rest

/-- The resolved video identifier: the explicit `video_id` field if truthy,
otherwise the id pattern-matched out of the cleaned URL (or `''`). -/
def resolveVid (v : Json) : Json :=
  let url := cleanString (objGet v urlKey)
  let vid0 := jsOrStr (objGet v videoIdKey) (Json.str [])
  if !(jsTruthy vid0) && !url.isEmpty then
    (match idMatch url with
     | some i => Json.str i
     | none => Json.str [])
  else vid0

/-- A sanitized video entry as returned by the `.map` body. -/
structure OutVideo where
  title : Str
  url : Str
  thumbnail : Str
  video_id : Json
deriving DecidableEq

/-- The `.map` body of `sanitizeVideos`. -/
def sanitizeOne (v : Json) : OutVideo :=
  let url := cleanString (objGet v urlKey)
  let title := cleanStringJ (jsOrStr (objGet v titleKey) (Json.str dvLit))
  let vid := resolveVid v
  let normalizedThumb :=
    if jsTruthy vid then viPre ++ jsToStr vid ++ viSuf else defaultThumb
  ⟨if title.isEmpty then dvLit else title, url, normalizedThumb, vid⟩

/-- The validity filter: `v.url && v.video_id && v.url.includes('youtube')`. -/
def validVideo (o : OutVideo) : Bool :=
  !o.url.isEmpty && jsTruthy o.video_id && occurs ytHostLit o.url

/-- `sanitizeVideos`: keep objects, clean each, keep the valid results. -/
def sanitizeVideos (arr : List Json) : List OutVideo :=
  ((arr.filter jsIsObj).map sanitizeOne).filter validVideo

/-! ## `formatMainContent` (`text-output-panel.tsx` lines 170-253) -/

/-- The three characters standing for the bullet in the source file. -/
def bulletMoji : Str := chars "â€¢"

/-- Opening of the `**Label:**` header replacement. -/
def h3Open : Str :=
  chars "<h3 class=\"text-lg font-bold text-blue-600 dark:text-blue-400 mt-6 mb-3 border-b border-blue-200 dark:border-blue-800 pb-2\">"

/-- Closing of the header replacement. -/
def h3Close : Str := chars "</h3>"

/-- The literal `**Category:**`. -/
def catLit : Str := chars "**Category:**"

/-- Opening of the `**Category:**` replacement. -/
def catOpen : Str :=
  chars "<div class=\"bg-blue-50 dark:bg-blue-900/20 p-3 rounded-lg mb-4\"><strong class=\"text-blue-700 dark:text-blue-300\">Category:</strong> <span class=\"text-gray-800 dark:text-gray-200\">"

/-- Closing of the `**Category:**` replacement. -/
def catClose : Str := chars "</span></div>"

/-- Opening of the bullet-line replacement. -/
def bulOpen : Str :=
  chars "<div class=\"flex items-start mb-3 p-2 hover:bg-gray-50 dark:hover:bg-gray-800/50 rounded\"><span class=\"text-blue-500 mr-3 mt-1 text-lg\">â€¢</span><span class=\"text-gray-800 dark:text-gray-200 leading-relaxed\">"

/-- Closing of the bullet-line replacement. -/
def bulClose : Str := chars "</span></div>"

/-- Matcher for `\*\*([^*]+):\*\*`: the greedy inner run must end in `:`. -/
def tryHeader : Str → Option (Str × Str)
  | c1 :: c2 :: rest =>
    if c1 = '*' then
      if c2 = '*' then
        let run := rest.takeWhile (fun c => c != '*')
        let rest2 := rest.dropWhile (fun c => c != '*')
        if 2 ≤ run.length && run.getLast? = some ':' && (chars "**").isPrefixOf rest2 then
          some (h3Open ++ run.dropLast ++ h3Close, rest2.drop 2)
        else none
      else none
    else none
  | _ => none

/-- Matcher for `\*\*Category:\*\*\s*([^\n]+)`: the greedy `\s*` backtracks
until `[^\n]+` can take at least one character. -/
def tryCategory (s : Str) : Option (Str × Str) :=
  match dropPre catLit s with
  | some t =>
    let w := (t.takeWhile isJsWs).length
    (match (List.range (w + 1)).reverse.find? (fun k =>
        match t.drop k with
        | c :: _ => c != '\n'
        | [] => false) with
     | some k =>
       let g := (t.drop k).takeWhile (fun c => c != '\n')
       some (catOpen ++ g ++ catClose, (t.drop k).dropWhile (fun c => c != '\n'))
     | none => none)
  | none => none

/-- ECMAScript line terminators (the boundaries of multiline `^`/`$`). -/
def isLineTerm (c : Char) : Bool :=
  c == '\n' || c == '\r' || c == ' ' || c == ' '

/-- The bullet-line pattern start: the bullet characters and a space. -/
def bulletMark : Str := bulletMoji ++ [' ']

/-- `/^<bullet> (.+)$/gm`: at every line start, a bullet line whose remainder
is non-empty and terminator-free is wrapped; everything else is copied. -/
def bulletPassF : Nat → Bool → Str → Str
  | 0, _, s => s
  | fuel + 1, atStart, s =>
    if atStart && bulletMark.isPrefixOf s &&

       !((s.drop bulletMark.length).takeWhile (fun c => !(isLineTerm c))).isEmpty then
      let g := (s.drop bulletMark.length).takeWhile (fun c => !(isLineTerm c))
      bulOpen ++ g ++ bulClose ++
        bulletPassF fuel false ((s.drop bulletMark.length).dropWhile (fun c => !(isLineTerm c)))
    else
      match s with
      | [] => []
      | c :: rest => c :: bulletPassF fuel (isLineTerm c) rest

/-- The bullet-line replacement pass. -/
def bulletPass (s : Str) : Str := bulletPassF s.length true s

/-- `https?:\/\/` case-insensitively, returning the remainder. -/
def schemeCI (s : Str) : Option Str :=
  match dropPreCI (chars "http") s with
  | none => none
  | some r0 =>
    match r0 with
    | c :: rr =>
      if ciEq 's' c then
        (match dropPreCI (chars "://") rr with
         | some r2 => some r2
         | none =>
           match dropPreCI (chars "://") r0 with
           | some r2 => some r2
           | none => none)
      else
        (match dropPreCI (chars "://") r0 with
         | some r2 => some r2
         | none => none)
    | [] => none

/-- Second alternative `youtu\.be\/([a-zA-Z0-9_-]+)` (case-insensitive). -/
def ytAltCI2 (r : Str) : Option (Str × Str) :=
  match dropPreCI (chars "youtu.be/") r with
  | some r4 =>
    let ids := r4.takeWhile isIdChar
    if ids.isEmpty then none else some (ids, r4.dropWhile isIdChar)
  | none => none

/-- Alternation `youtube\.com\/watch\?v=<id> | youtu\.be\/<id>` (case-insensitive),
returning the captured id and the remainder after it. -/
def ytAltCI (r : Str) : Option (Str × Str) :=
  match dropPreCI (chars "youtube.com/watch?v=") r with
  | some r4 =>
    let ids := r4.takeWhile isIdChar
    if ids.isEmpty then ytAltCI2 r else some (ids, r4.dropWhile isIdChar)
  | none => ytAltCI2 r

/-- First fixed piece of the inline video-preview block template. -/
def ytB0 : Str :=
  chars "<div class=\"my-4 p-3 bg-red-50 dark:bg-red-900/20 rounded-lg border border-red-200 dark:border-red-800\">\n              <a href=\""

/-- Second fixed piece (between `${match}` and `${videoId}`). -/
def ytB1 : Str :=
  chars "\" target=\"_blank\" rel=\"noopener noreferrer\" class=\"block group\">\n                <div class=\"flex items-center space-x-3\">\n                  <div class=\"relative flex-shrink-0\">\n                    <img src=\"https://img.youtube.com/vi/"

/-- Third fixed piece (between `${videoId}` and the second `${match}`). -/
def ytB2 : Str :=
  chars "/mqdefault.jpg\" \n                         alt=\"YouTube Thumbnail\" \n                         class=\"w-20 h-15 object-cover rounded group-hover:shadow-lg transition-shadow\"\n                         onerror=\"this.src=\x27https://img.youtube.com/vi/default/default.jpg\x27\"/>\n                    <div class=\"absolute inset-0 flex items-center justify-center bg-black bg-opacity-20 rounded group-hover:bg-opacity-30 transition-all\">\n                      <svg class=\"w-6 h-6 text-white\" fill=\"currentColor\" viewBox=\"0 0 24 24\">\n                        <path d=\"M8 5v14l11-7z\"/>\n                      </svg>\n                    </div>\n                  </div>\n                  <div class=\"min-w-0 flex-1\">\n                    <p class=\"text-sm font-medium text-red-600 dark:text-red-400 group-hover:text-red-700 dark:group-hover:text-red-300 transition-colors\">\n                      ðŸŽ¥ Watch Diagnostic Video\n                    </p>\n                    <p class=\"text-xs text-gray-500 dark:text-gray-400 truncate\">"

/-- Last fixed piece of the block template. -/
def ytB3 : Str :=
  chars "</p>\n                  </div>\n                </div>\n              </a>\n            </div>"

/-- The inline video-preview block built from the matched URL and video id. -/
def ytBlock (m vid : Str) : Str := ytB0 ++ m ++ ytB1 ++ vid ++ ytB2 ++ m ++ ytB3

/-- Matcher for the YouTube-embed regex
`https?:\/\/(?:www\.)?(?:youtube\.com\/watch\?v=|youtu\.be\/)([a-zA-Z0-9_-]+)(?:\S*)` (`gi`). -/
def tryYt (s : Str) : Option (Str × Str) :=
  match schemeCI s with
  | none => none
  | some r2 =>
    let alt :=
      match dropPreCI (chars "www.") r2 with
      | some r3 =>
        (match ytAltCI r3 with
         | some x => some x
         | none => ytAltCI r2)
      | none => ytAltCI r2
    match alt with
    | some (vid, afterId) =>
      let rest := afterId.dropWhile (fun c => !(isJsWs c))
      some (ytBlock (s.take (s.length - rest.length)) vid, rest)
    | none => none

/-- Domain characters `[-\w.]`. -/
def isDomainChar (c : Char) : Bool := isWordChar c || c == '.' || c == '-'

/-- Path characters `[\w\/_.]`. -/
def isPathChar (c : Char) : Bool := isWordChar c || c == '/' || c == '.'

/-- Query characters `[\w&=%.-]`. -/
def isQueryChar (c : Char) : Bool :=
  isWordChar c || c == '&' || c == '=' || c == '%' || c == '.' || c == '-'

/-- Fragment characters `[\w.-]`. -/
def isFragChar (c : Char) : Bool := isWordChar c || c == '.' || c == '-'

/-- The generic URL regex after the scheme: domain, optional port, optional
path, optional query, optional fragment.  Returns the remainder. -/
def urlTailFrom (r2 : Str) : Option Str :=
  let dom := r2.takeWhile isDomainChar
  if dom.isEmpty then none
  else
    let r3 := r2.dropWhile isDomainChar
    let r4 := match r3 with
      | ':' :: rr =>
        let ds := rr.takeWhile isDigitCh
        if ds.isEmpty then r3 else rr.dropWhile isDigitCh
      | _ => r3
    let r5 := match r4 with
      | '/' :: rr => rr.dropWhile isPathChar
      | _ => r4
    let r6 := match r5 with
      | '?' :: rr => rr.dropWhile isQueryChar
      | _ => r5
    let r7 := match r6 with
      | '#' :: rr => rr.dropWhile isFragChar
      | _ => r6
    some r7

/-- Opening of the hyperlink replacement template. -/
def aOpen : Str := chars "<a href=\""

/-- Middle of the hyperlink replacement template (between the two `$1`). -/
def aMid : Str :=
  chars "\" target=\"_blank\" rel=\"noopener noreferrer\" class=\"inline-flex items-center text-blue-600 hover:text-blue-800 dark:text-blue-400 dark:hover:text-blue-300 underline font-medium break-all\"><svg class=\"w-3 h-3 mr-1 flex-shrink-0\" fill=\"none\" stroke=\"currentColor\" viewBox=\"0 0 24 24\"><path stroke-linecap=\"round\" stroke-linejoin=\"round\" stroke-width=\"2\" d=\"M10 6H6a2 2 0 00-2 2v10a2 2 0 002 2h10a2 2 0 002-2v-4M14 4h6m0 0v6m0-6L10 14\"></path></svg>"

/-- Closing of the hyperlink replacement template. -/
def aClose : Str := chars "</a>"

/-- Matcher for the generic URL-to-hyperlink regex (`gi`). -/
def tryLinkAll (s : Str) : Option (Str × Str) :=
  match schemeCI s with
  | none => none
  | some r2 =>
    match urlTailFrom r2 with
    | some rest =>
      let m := s.take (s.length - rest.length)
      some (aOpen ++ m ++ aMid ++ m ++ aClose, rest)
    | none => none

/-- Core of the negative lookahead: `youtube\.com\/watch\?v=|youtu\.be\/` (ci). -/
def ytLookCore (r : Str) : Bool :=
  (dropPreCI (chars "youtube.com/watch?v=") r).isSome ||
  (dropPreCI (chars "youtu.be/") r).isSome

/-- `(?:www\.)?(?:youtube\.com\/watch\?v=|youtu\.be\/)` as a lookahead test. -/
def ytLookahead (r : Str) : Bool :=
  match dropPreCI (chars "www.") r with
  | some r3 => ytLookCore r3 || ytLookCore r
  | none => ytLookCore r

/-- Matcher for the YouTube-excluding URL-to-hyperlink regex (`gi`). -/
def tryLinkNY (s : Str) : Option (Str × Str) :=
  match schemeCI s with
  | none => none
  | some r2 =>
    if ytLookahead r2 then none
    else
      match urlTailFrom r2 with
      | some rest =>
        let m := s.take (s.length - rest.length)
        some (aOpen ++ m ++ aMid ++ m ++ aClose, rest)
      | none => none

/-- The `<div class="my-4"></div>` paragraph break. -/
def nnDiv : Str := chars "<div class=\"my-4\"></div>"

/-- The `<br>` line break. -/
def brTag : Str := chars "<br>"

/-- The four escape-fixup replacements at the top of `formatMainContent`. -/
def escapePass (s : Str) : Str :=
  replaceAll (tryLit (chars "\\\\") ['\\'])
    (replaceAll (tryLit (chars "\\\"") ['"'])
      (replaceAll (tryLit (chars "\\u2022") bulletMoji)
        (replaceAll (tryLit (chars "\\n") ['\n']) s)))

/-- `formatMainContent(content, hasStructuredVideos)`. -/
def formatMainContent (content : Str) (hasStructuredVideos : Bool) : Str :=
  let decoded := escapePass content
  let f1 := bulletPass (replaceAll tryCategory (replaceAll tryHeader decoded))
  let f2 := if hasStructuredVideos then f1 else replaceAll tryYt f1
  let f3 := if hasStructuredVideos then replaceAll tryLinkNY f2 else replaceAll tryLinkAll f2
  replaceAll (tryLit (chars "\n") brTag) (replaceAll (tryLit (chars "\n\n") nnDiv) f3)

/-- The sanitized video list handed to the panel renderer for a given
`textContent`. -/
def panelVideos (textContent : Str) : List OutVideo :=
  sanitizeVideos (panelParse textContent).youtubeVideos

/-- The formatted main content rendered by the panel for a given `textContent`
(the `dangerouslySetInnerHTML` input). -/
def panelMain (textContent : Str) : Str :=
  formatMainContent (panelParse textContent).mainContent (!(panelVideos textContent).isEmpty)

/-! ## Helper lemmas about the sanitizer -/

/-- `sanitizeVideos` is the subsequence of candidates that pass the combined
guard, each cleaned, in input order. -/
theorem sanitizeVideos_eq_filter_map (arr : List Json) :
    sanitizeVideos arr =
      (arr.filter (fun x => jsIsObj x && validVideo (sanitizeOne x))).map sanitizeOne := by
  unfold sanitizeVideos
  rw [List.filter_map, List.filter_filter]
  exact congrArg _ (List.filter_congr (fun x _ => by
    cases h1 : jsIsObj x <;> cases h2 : validVideo (sanitizeOne x) <;> simp [h1, h2]))

/-- A candidate whose declared media fields are strings (or absent), as in the
inbound payload interface. -/
def fieldStrOk (v : Json) (k : Str) : Bool :=
  match objGet v k with
  | none => true
  | some (.str _) => true
  | some _ => false

/-- All four `VideoRef` fields of a candidate are strings or absent. -/
def strShapedEntry (v : Json) : Bool :=
  fieldStrOk v urlKey && fieldStrOk v titleKey && fieldStrOk v videoIdKey && fieldStrOk v thumbKey

/-- Under the string-shaped hypothesis the resolved video id is a string. -/
theorem resolveVid_str (v : Json) (h : fieldStrOk v videoIdKey = true) :
    ∃ s, resolveVid v = Json.str s := by
  have hvid0 : ∃ s0, jsOrStr (objGet v videoIdKey) (Json.str []) = Json.str s0 := by
    unfold fieldStrOk at h
    cases hvk : objGet v videoIdKey with
    | none => exact ⟨[], rfl⟩
    | some j =>
      rw [hvk] at h
      cases j with
      | str s =>
        cases ht : jsTruthy (Json.str s)
        · exact ⟨[], by simp [jsOrStr, ht]⟩
        · exact ⟨s, by simp [jsOrStr, ht]⟩
      | null => simp at h
      | bool b => simp at h
      | num lx => simp at h
      | arr l => simp at h
      | obj m => simp at h
  rcases hvid0 with ⟨s0, hs0⟩
  simp only [resolveVid]
  rw [hs0]
  split
  · rcases idMatch (cleanString (objGet v urlKey)) with _ | i
    · exact ⟨_, rfl⟩
    · exact ⟨_, rfl⟩
  · exact ⟨s0, rfl⟩

/-- A URL containing `youtube` is non-empty. -/
theorem url_nonempty_of_occurs (u : Str) (h : occurs ytHostLit u = true) :
    u.isEmpty = false := by
  cases u with
  | nil => exact absurd h (by decide)
  | cons c rest => rfl

/-- The sanitized entry's `video_id` equals the resolved id, and its
`thumbnail` is rebuilt from it. -/
theorem sanitizeOne_video_id (v : Json) : (sanitizeOne v).video_id = resolveVid v := rfl

/-- The thumbnail of a sanitized entry with a truthy id. -/
theorem sanitizeOne_thumb (v : Json) (h : jsTruthy (resolveVid v) = true) :
    (sanitizeOne v).thumbnail = viPre ++ jsToStr (resolveVid v) ++ viSuf := by
  unfold sanitizeOne
  simp [h]

/-- Filtering by a predicate the element satisfies preserves its count. -/
theorem count_filter_of_pos {α : Type} [DecidableEq α] (p : α → Bool) (x : α)
    (h : p x = true) : ∀ l : List α, List.count x (l.filter p) = List.count x l := by
  intro l
  induction l with
  | nil => rfl
  | cons a as ih =>
    cases hpa : p a with
    | false =>
      have hne : (a == x) = false := by
        cases hbeq : a == x with
        | false => rfl
        | true => rw [eq_of_beq hbeq, h] at hpa; cases hpa
      rw [List.filter_cons_of_neg (by simp [hpa]), List.count_cons, ih, hne]
      simp
    | true =>
      rw [List.filter_cons_of_pos (by simp [hpa]), List.count_cons, List.count_cons, ih]

/-! ## Claim C9 -/

/-- C9: video sanitization preserves order and does not deduplicate: the
output is exactly the cleaned subsequence of the candidates that pass the
guard, in the same relative order, and a candidate occurring several times
contributes at least as many occurrences of its cleaned form. -/
theorem sanitize_order_multiplicity :
    ∀ arr : List Json,
      sanitizeVideos arr =
        (arr.filter (fun x => jsIsObj x && validVideo (sanitizeOne x))).map sanitizeOne ∧
      ∀ x : Json, (jsIsObj x && validVideo (sanitizeOne x)) = true →
        List.count x arr ≤ List.count (sanitizeOne x) (sanitizeVideos arr) := by
  intro arr
  refine ⟨sanitizeVideos_eq_filter_map arr, fun x hx => ?_⟩
  rw [sanitizeVideos_eq_filter_map arr]
  calc List.count x arr
      = List.count x (arr.filter (fun a => jsIsObj a && validVideo (sanitizeOne a))) :=
        (count_filter_of_pos _ x hx arr).symm
    _ ≤ _ := List.count_le_count_map _ sanitizeOne x

/-- A well-formed candidate used by several witnesses. -/
def okEntry : Json :=
  Json.obj (JMems.cons urlKey (Json.str (chars "https://www.youtube.com/watch?v=Zx9"))
    (JMems.cons titleKey (Json.str (chars "Brake pads")) JMems.nil))

/-- Witness for C9 at a concrete duplicated candidate list. -/
theorem sanitize_order_multiplicity_witness :
    (jsIsObj okEntry && validVideo (sanitizeOne okEntry)) = true ∧
    List.count okEntry [okEntry, okEntry] ≤
      List.count (sanitizeOne okEntry) (sanitizeVideos [okEntry, okEntry]) :=
  ⟨by decide, (sanitize_order_multiplicity [okEntry, okEntry]).2 okEntry (by decide)⟩

/-! ## Claim C3 -/

/-- C3: every sanitized entry has a non-empty (string) `video_id` and a URL
containing the recognized host substring `youtube`; and the output is exactly
the cleaned candidates that satisfy both conditions after cleaning (all other
candidates are dropped).  Candidates are restricted to the inbound interface
shape (`url`/`title`/`video_id`/`thumbnail` strings or absent). -/
theorem sanitized_videos_invariant :
    ∀ arr : List Json, (∀ v ∈ arr, strShapedEntry v = true) →
      (∀ o ∈ sanitizeVideos arr,
        (∃ s, o.video_id = Json.str s ∧ s ≠ []) ∧ occurs ytHostLit o.url = true) ∧
      sanitizeVideos arr =
        (arr.filter (fun x => jsIsObj x &&
          ((match (sanitizeOne x).video_id with
            | Json.str s => !s.isEmpty
            | _ => false) && occurs ytHostLit (sanitizeOne x).url))).map sanitizeOne := by
  intro arr hshape
  have hvidstr : ∀ v ∈ arr, ∃ s, (sanitizeOne v).video_id = Json.str s := by
    intro v hv
    rw [sanitizeOne_video_id]
    refine resolveVid_str v ?_
    have := hshape v hv
    unfold strShapedEntry at this
    simp only [Bool.and_eq_true] at this
    exact this.1.2
  constructor
  · intro o ho
    rw [sanitizeVideos_eq_filter_map arr] at ho
    rcases List.mem_map.mp ho with ⟨x, hxmem, rfl⟩
    rcases List.mem_filter.mp hxmem with ⟨hxarr, hxpass⟩
    simp only [Bool.and_eq_true] at hxpass
    have hvalid := hxpass.2
    unfold validVideo at hvalid
    simp only [Bool.and_eq_true] at hvalid
    rcases hvidstr x hxarr with ⟨s, hs⟩
    refine ⟨⟨s, hs, ?_⟩, hvalid.2⟩
    intro hnil
    rw [hs, hnil] at hvalid
    exact absurd hvalid.1.2 (by decide)
  · rw [sanitizeVideos_eq_filter_map arr]
    refine congrArg _ (List.filter_congr (fun x hx => ?_))
    rcases hvidstr x hx with ⟨s, hs⟩
    cases hobj : jsIsObj x
    · rfl
    · simp only [Bool.true_and]
      unfold validVideo
      rw [hs]
      cases hocc : occurs ytHostLit (sanitizeOne x).url
      · simp
      · rw [url_nonempty_of_occurs _ hocc]
        cases hse : s.isEmpty <;> simp [jsTruthy, hse]

/-- Witness for C3 at a concrete candidate list (one kept object, one
non-object, one host-less entry that is dropped). -/
theorem sanitized_videos_invariant_witness :
    (∀ v ∈ [okEntry, Json.str (chars "noise"), Json.obj JMems.nil], strShapedEntry v = true) ∧
    ((∀ o ∈ sanitizeVideos [okEntry, Json.str (chars "noise"), Json.obj JMems.nil],
        (∃ s, o.video_id = Json.str s ∧ s ≠ []) ∧ occurs ytHostLit o.url = true) ∧
      sanitizeVideos [okEntry, Json.str (chars "noise"), Json.obj JMems.nil] =
        (([okEntry, Json.str (chars "noise"), Json.obj JMems.nil].filter (fun x => jsIsObj x &&
          ((match (sanitizeOne x).video_id with
            | Json.str s => !s.isEmpty
            | _ => false) && occurs ytHostLit (sanitizeOne x).url))).map sanitizeOne)) :=
  ⟨by decide, sanitized_videos_invariant _ (by decide)⟩

/-! ## Claim C4 -/

/-- The spec's example entry `{url: "https://youtu.be/abc123", title: "<a>Fix</a>"}`. -/
def c4entry : Json :=
  Json.obj (JMems.cons urlKey (Json.str (chars "https://youtu.be/abc123"))
    (JMems.cons titleKey (Json.str (chars "<a>Fix</a>")) JMems.nil))

/-- C4 (code bug): cleaning produces exactly the values the spec's example
promises — title `Fix`, url `https://youtu.be/abc123`, video id `abc123`,
thumbnail `https://img.youtube.com/vi/abc123/mqdefault.jpg` — but the validity
filter then drops the entry, because `"https://youtu.be/abc123".includes("youtube")`
is false, so the sanitized list is empty instead of retaining the entry. -/
theorem youtu_be_example_dropped :
    sanitizeOne c4entry =
      ⟨chars "Fix", chars "https://youtu.be/abc123",
       chars "https://img.youtube.com/vi/abc123/mqdefault.jpg",
       Json.str (chars "abc123")⟩ ∧
    sanitizeVideos [c4entry] = [] := by
  constructor
  · decide
  · decide

/-! ## Claim C5 -/

/-- The candidate carrying only a `video_id`. -/
def c5entry : Json :=
  Json.obj (JMems.cons videoIdKey (Json.str (chars "abc123")) JMems.nil)

/-- C5 counterexample: an entry carrying only a `video_id` (no usable URL)
does not appear in the sanitization output at all — the claim promised its
deterministic thumbnail URL "in the output". -/
theorem thumbnail_only_video_id_dropped :
    sanitizeVideos [c5entry] = [] := by decide

/-- C5 as amended: the sanitizer resolves the id from the explicit `video_id`
field or else by pattern-matching the cleaned URL (`resolveVid`), and every
retained entry's thumbnail is `https://img.youtube.com/vi/<id>/mqdefault.jpg`
built from that resolved id; the input's own `thumbnail` field is ignored
(entries agreeing on `url`, `title` and `video_id` sanitize identically); an
entry with only a `video_id` still gets the deterministic thumbnail during
cleaning but is dropped from the output for lack of a URL. -/
theorem thumbnail_from_resolved_id :
    (∀ arr : List Json, ∀ o ∈ sanitizeVideos arr, ∃ x ∈ arr, o = sanitizeOne x ∧
       o.video_id = resolveVid x ∧
       o.thumbnail = viPre ++ jsToStr (resolveVid x) ++ viSuf) ∧
    (∀ x y : Json, objGet x urlKey = objGet y urlKey →
       objGet x titleKey = objGet y titleKey →
       objGet x videoIdKey = objGet y videoIdKey → sanitizeOne x = sanitizeOne y) ∧
    (sanitizeOne c5entry).thumbnail = viPre ++ chars "abc123" ++ viSuf ∧
    sanitizeVideos [c5entry] = [] := by
  refine ⟨?_, ?_, by decide, by decide⟩
  · intro arr o ho
    rw [sanitizeVideos_eq_filter_map arr] at ho
    rcases List.mem_map.mp ho with ⟨x, hxmem, rfl⟩
    rcases List.mem_filter.mp hxmem with ⟨hxarr, hxpass⟩
    simp only [Bool.and_eq_true] at hxpass
    have hvalid := hxpass.2
    unfold validVideo at hvalid
    simp only [Bool.and_eq_true] at hvalid
    have htruthy : jsTruthy (resolveVid x) = true := by
      have := hvalid.1.2
      rwa [sanitizeOne_video_id] at this
    exact ⟨x, hxarr, rfl, sanitizeOne_video_id x, sanitizeOne_thumb x htruthy⟩
  · intro x y h1 h2 h3
    unfold sanitizeOne resolveVid
    rw [h1, h2, h3]

/-- A candidate with an extra untrusted `thumbnail` field. -/
def thumbedEntry : Json :=
  Json.obj (JMems.cons urlKey (Json.str (chars "https://www.youtube.com/watch?v=Zx9"))
    (JMems.cons titleKey (Json.str (chars "Brake pads"))
      (JMems.cons thumbKey (Json.str (chars "https://evil.example/x.jpg")) JMems.nil)))

/-- Witness for C5: a retained candidate's thumbnail is rebuilt from the
resolved id, and supplying a different `thumbnail` input changes nothing. -/
theorem thumbnail_from_resolved_id_witness :
    (sanitizeOne okEntry ∈ sanitizeVideos [okEntry] ∧
     ∃ x ∈ [okEntry], sanitizeOne okEntry = sanitizeOne x ∧
       (sanitizeOne okEntry).video_id = resolveVid x ∧
       (sanitizeOne okEntry).thumbnail = viPre ++ jsToStr (resolveVid x) ++ viSuf) ∧
    (objGet thumbedEntry urlKey = objGet okEntry urlKey ∧
     objGet thumbedEntry titleKey = objGet okEntry titleKey ∧
     objGet thumbedEntry videoIdKey = objGet okEntry videoIdKey ∧
     sanitizeOne thumbedEntry = sanitizeOne okEntry) :=
  ⟨⟨by decide, thumbnail_from_resolved_id.1 [okEntry] (sanitizeOne okEntry) (by decide)⟩,
   by decide, by decide, by decide,
   thumbnail_from_resolved_id.2.1 thumbedEntry okEntry (by decide) (by decide) (by decide)⟩

/-! ## Helper lemmas about the normalizer's scan loops -/

/-- The `TEXT_ONLY:` loop is a first-match search with the amended guard. -/
theorem textOnlyScan_eq_find (l : List Str) :
    textOnlyScan l = (l.find? textOnlyHit).map textOnlyOut := by
  induction l with
  | nil => rfl
  | cons raw rest ih =>
    cases hpre : textOnlyTag.isPrefixOf raw with
    | false => simp [textOnlyScan, textOnlyHit, hpre, List.find?_cons, ih]
    | true =>
      cases hpj : parseJson (jsTrim (raw.drop textOnlyTag.length)) with
      | none =>
        simp [textOnlyScan, textOnlyHit, textOnlyOut, hpre, hpj, List.find?_cons]
      | some p =>
        cases hc : jsTruthy p && (contentStrOf p).isSome with
        | true =>
          simp [textOnlyScan, textOnlyHit, textOnlyOut, hpre, hpj, hc, List.find?_cons]
        | false =>
          simp [textOnlyScan, textOnlyHit, hpre, hpj, hc, List.find?_cons, ih]

/-- The `VOICE|||TEXT` loop is a first-match search with the amended guard. -/
theorem voiceScan_eq_find (l : List Str) :
    voiceScan l = (l.find? voiceHit).map voiceOut := by
  induction l with
  | nil => rfl
  | cons raw rest ih =>
    cases hvd : voiceDecomp raw with
    | none => simp [voiceScan, voiceHit, hvd, List.find?_cons, ih]
    | some p =>
      cases hpj : parseJson p.2 with
      | none =>
        simp [voiceScan, voiceHit, voiceOut, hvd, hpj, List.find?_cons]
      | some q =>
        cases hc : jsTruthy q && (contentStrOf q).isSome with
        | true =>
          simp [voiceScan, voiceHit, voiceOut, hvd, hpj, hc, List.find?_cons]
        | false =>
          simp [voiceScan, voiceHit, hvd, hpj, hc, List.find?_cons, ih]

/-- The legacy-JSON loop is a first-match search with its guard. -/
theorem legacyScan_eq_find (l : List Str) :
    legacyScan l = (l.find? legacyHit).map legacyOut := by
  induction l with
  | nil => rfl
  | cons raw rest ih =>
    cases hpj : parseJson raw with
    | none => simp [legacyScan, legacyHit, hpj, List.find?_cons, ih]
    | some p =>
      cases ht : jsTruthy p with
      | false => simp [legacyScan, legacyHit, hpj, ht, List.find?_cons, ih]
      | true =>
        cases ho : objGet p textOutputKey with
        | none => simp [legacyScan, legacyHit, hpj, ht, ho, List.find?_cons, ih]
        | some tOut =>
          cases hc : jsTruthy tOut && (contentStrOf tOut).isSome with
          | true =>
            simp [legacyScan, legacyHit, legacyOut, hpj, ht, ho, hc, List.find?_cons]
          | false =>
            simp [legacyScan, legacyHit, hpj, ht, ho, hc, List.find?_cons, ih]

/-! ## Claim C1 -/

/-- The two messages refuting the claimed ladder: the newer `TEXT_ONLY:` chunk
has malformed JSON, so the code returns its raw fragment instead of the older
chunk's normalized JSON. -/
def c1msgs : List ChatMsg :=
  [assistantMsg (chars "TEXT_ONLY:\x7b\"content\":\"old\"\x7d"),
   assistantMsg (chars "TEXT_ONLY:\x7d")]

/-- C1 counterexample: on `c1msgs` the normalizer returns `"}"` (the newer
chunk's unparseable fragment), while the claimed precedence — newest message
whose JSON has a string `content` — would select the older chunk and return
its normalized JSON. -/
theorem decoding_precedence_cex :
    getLatestTextContent [] c1msgs ≠ claimLadder [] c1msgs := by decide

/-- C1 as amended: the normalizer equals the first-match-wins ladder in which
a side-channel payload wins outright, and each text rule fires at the newest
message bearing its marker whose fragment either parses to a value with a
string `content` (returning the normalized JSON) or fails to parse (returning
the raw fragment); the bare-JSON rule fires only on a successful parse with a
string `text_output.content`. -/
theorem decoding_precedence_amended :
    ∀ (diagnosticTextPayload : Str) (messages : List ChatMsg),
      getLatestTextContent diagnosticTextPayload messages =
        amendedLadder diagnosticTextPayload messages := by
  intro payload messages
  unfold getLatestTextContent amendedLadder
  cases payload.isEmpty with
  | false => rfl
  | true =>
    simp only [Bool.not_true, if_false,
      textOnlyScan_eq_find, voiceScan_eq_find, legacyScan_eq_find]
    cases List.find? textOnlyHit ((assistantRaws messages).reverse) with
    | some raw => rfl
    | none =>
      cases List.find? voiceHit ((assistantRaws messages).reverse) with
      | some raw => rfl
      | none =>
        cases List.find? legacyHit ((assistantRaws messages).reverse) with
        | some raw => rfl
        | none => rfl

/-! ## Claim C2 -/

/-- A `VOICE|||TEXT` message does not carry the `TEXT_ONLY:` prefix. -/
theorem voiceDecomp_not_textOnly (raw : Str) (x : Str × Str)
    (h : voiceDecomp raw = some x) : textOnlyTag.isPrefixOf raw = false := by
  unfold voiceDecomp at h
  cases hv : voiceTag.isPrefixOf raw with
  | false => rw [hv] at h; simp at h
  | true =>
    have hV : voiceTag = 'V' :: chars "OICE:" := rfl
    have hT : textOnlyTag = 'T' :: chars "EXT_ONLY:" := rfl
    cases raw with
    | nil => rw [hV] at hv; simp [List.isPrefixOf] at hv
    | cons c cs =>
      rw [hV] at hv
      simp only [List.isPrefixOf, Bool.and_eq_true, beq_iff_eq] at hv
      rw [hT]
      simp only [List.isPrefixOf, Bool.and_eq_true, beq_iff_eq, ← hv.1]
      simp

/-- C2 counterexample: a message that is none of the encodings but whose
whole body fails to parse as JSON (`"{x"`) makes the normalizer return the
empty string, not the extracted fragment the claim promises for the bare-JSON
case. -/
theorem fragment_fallback_cex :
    getLatestTextContent [] [assistantMsg (chars "\x7bx")] = [] ∧
    chars "\x7bx" ≠ ([] : Str) := by decide

/-- C2 as amended: a JSON-parse failure of the extracted `TEXT_ONLY:` fragment
or of the `VOICE|||TEXT` second segment makes the normalizer return that
fragment as literal text; a bare message that fails to parse is skipped
(contributing the empty result), it is not returned as a fragment; and the
panel parser degrades to treating its whole input as plain content on parse
failure.  (All embedded functions are total, so no step can throw.) -/
theorem fragment_fallback_amended :
    (∀ raw : Str, textOnlyTag.isPrefixOf raw = true →
        parseJson (jsTrim (raw.drop textOnlyTag.length)) = none →
        getLatestTextContent [] [assistantMsg raw] = jsTrim (raw.drop textOnlyTag.length)) ∧
    (∀ raw v t, voiceDecomp raw = some (v, t) → parseJson t = none →
        getLatestTextContent [] [assistantMsg raw] = t) ∧
    (∀ raw : Str, parseJson raw = none → textOnlyTag.isPrefixOf raw = false →
        voiceDecomp raw = none → getLatestTextContent [] [assistantMsg raw] = []) ∧
    (∀ raw : Str, parseJson raw = none → panelParse raw = ⟨raw, [], [], false⟩) := by
  have hraws : ∀ raw : Str, assistantRaws [assistantMsg raw] = [raw] := fun raw => rfl
  refine ⟨?_, ?_, ?_, ?_⟩
  · intro raw hpre hpj
    simp [getLatestTextContent, hraws, textOnlyScan, hpre, hpj]
  · intro raw v t hvd hpj
    have hpre := voiceDecomp_not_textOnly raw (v, t) hvd
    simp [getLatestTextContent, hraws, textOnlyScan, voiceScan, hpre, hvd, hpj]
  · intro raw hpj hpre hvd
    simp [getLatestTextContent, hraws, textOnlyScan, voiceScan, legacyScan, hpre, hvd, hpj]
  · intro raw hpj
    unfold panelParse parseStructured legacyParse
    rw [hpj]
    cases raw with
    | nil => rfl
    | cons c cs => rfl

/-- Witness for C2 at concrete inputs of each branch. -/
theorem fragment_fallback_witness :
    (textOnlyTag.isPrefixOf (chars "TEXT_ONLY: \x7d") = true ∧
     parseJson (jsTrim ((chars "TEXT_ONLY: \x7d").drop textOnlyTag.length)) = none ∧
     getLatestTextContent [] [assistantMsg (chars "TEXT_ONLY: \x7d")] =
       jsTrim ((chars "TEXT_ONLY: \x7d").drop textOnlyTag.length)) ∧
    (voiceDecomp (chars "VOICE:Hi|||TEXT:oops") = some (chars "Hi", chars "oops") ∧
     parseJson (chars "oops") = none ∧
     getLatestTextContent [] [assistantMsg (chars "VOICE:Hi|||TEXT:oops")] = chars "oops") ∧
    (parseJson (chars "nope") = none ∧ textOnlyTag.isPrefixOf (chars "nope") = false ∧
     voiceDecomp (chars "nope") = none ∧
     getLatestTextContent [] [assistantMsg (chars "nope")] = []) ∧
    (parseJson (chars "broken \x7b") = none ∧
     panelParse (chars "broken \x7b") = ⟨chars "broken \x7b", [], [], false⟩) :=
  ⟨⟨by decide, by decide, fragment_fallback_amended.1 (chars "TEXT_ONLY: \x7d") (by decide) (by decide)⟩,
   ⟨by decide, by decide,
    fragment_fallback_amended.2.1 (chars "VOICE:Hi|||TEXT:oops") (chars "Hi") (chars "oops")
      (by decide) (by decide)⟩,
   ⟨by decide, by decide, by decide,
    fragment_fallback_amended.2.2.1 (chars "nope") (by decide) (by decide) (by decide)⟩,
   ⟨by decide, fragment_fallback_amended.2.2.2 (chars "broken \x7b") (by decide)⟩⟩

/-! ## Claim C7 -/

/-- A message matching none of the structured encodings: no `TEXT_ONLY:`
prefix, no `VOICE|||TEXT` shape, and not bare JSON with a truthy
`text_output` carrying a string `content`. -/
def noEncoding (s : Str) : Bool :=
  !(textOnlyTag.isPrefixOf s) && (voiceDecomp s).isNone && !(legacyHit s)

/-- The `TEXT_ONLY:` loop finds nothing among unprefixed messages. -/
theorem textOnlyScan_none (l : List Str)
    (h : ∀ s ∈ l, textOnlyTag.isPrefixOf s = false) : textOnlyScan l = none := by
  induction l with
  | nil => rfl
  | cons raw rest ih =>
    have hraw := h raw (by simp)
    simp [textOnlyScan, hraw, ih (fun s hs => h s (by simp [hs]))]

/-- The `VOICE|||TEXT` loop finds nothing among non-matching messages. -/
theorem voiceScan_none (l : List Str)
    (h : ∀ s ∈ l, voiceDecomp s = none) : voiceScan l = none := by
  induction l with
  | nil => rfl
  | cons raw rest ih =>
    have hraw := h raw (by simp)
    simp [voiceScan, hraw, ih (fun s hs => h s (by simp [hs]))]

/-- The legacy loop finds nothing among messages failing its guard. -/
theorem legacyScan_none (l : List Str)
    (h : ∀ s ∈ l, legacyHit s = false) : legacyScan l = none := by
  induction l with
  | nil => rfl
  | cons raw rest ih =>
    have hrest := ih (fun s hs => h s (by simp [hs]))
    cases hpj : parseJson raw with
    | none => simp [legacyScan, hpj, hrest]
    | some p =>
      cases ht : jsTruthy p with
      | false => simp [legacyScan, hpj, ht, hrest]
      | true =>
        cases ho : objGet p textOutputKey with
        | none => simp [legacyScan, hpj, ht, ho, hrest]
        | some tOut =>
          have hraw := h raw (by simp)
          simp only [legacyHit, hpj, ht, ho, Bool.true_and] at hraw
          simp [legacyScan, hpj, ht, ho, hraw, hrest]

/-- C7 as amended: with no side-channel payload, if every assistant string
message matches none of the structured encodings, the normalizer returns the
empty string — so the panel shows empty content, no web sources and no videos
(the whole message does not become the panel's main content). -/
theorem plain_text_fallback (messages : List ChatMsg)
    (h : ∀ s ∈ assistantRaws messages, noEncoding s = true) :
    getLatestTextContent [] messages = [] ∧ panelParse [] = ⟨[], [], [], false⟩ := by
  have h1 : ∀ s ∈ (assistantRaws messages).reverse, textOnlyTag.isPrefixOf s = false := by
    intro s hs
    have := h s (List.mem_reverse.mp hs)
    unfold noEncoding at this
    simp only [Bool.and_eq_true, Bool.not_eq_true'] at this
    exact this.1.1
  have h2 : ∀ s ∈ (assistantRaws messages).reverse, voiceDecomp s = none := by
    intro s hs
    have := h s (List.mem_reverse.mp hs)
    unfold noEncoding at this
    simp only [Bool.and_eq_true, Option.isNone_iff_eq_none] at this
    exact this.1.2
  have h3 : ∀ s ∈ (assistantRaws messages).reverse, legacyHit s = false := by
    intro s hs
    have := h s (List.mem_reverse.mp hs)
    unfold noEncoding at this
    simp only [Bool.and_eq_true, Bool.not_eq_true'] at this
    exact this.2
  refine ⟨?_, rfl⟩
  simp [getLatestTextContent, textOnlyScan_none _ h1, voiceScan_none _ h2,
    legacyScan_none _ h3]

/-- C7 counterexample: the plain-text assistant message `"hello"` matches no
encoding, yet the panel's main content is empty, not `"hello"`. -/
theorem plain_text_fallback_cex :
    getLatestTextContent [] [assistantMsg (chars "hello")] = [] ∧
    (panelParse (getLatestTextContent [] [assistantMsg (chars "hello")])).mainContent = [] ∧
    chars "hello" ≠ ([] : Str) := by decide

/-- Witness for C7 at the single plain-text message `"hello"`. -/
theorem plain_text_fallback_witness :
    (∀ s ∈ assistantRaws [assistantMsg (chars "hello")], noEncoding s = true) ∧
    (getLatestTextContent [] [assistantMsg (chars "hello")] = [] ∧
     panelParse [] = ⟨[], [], [], false⟩) :=
  ⟨by decide, plain_text_fallback _ (by decide)⟩

/-! ## Claim C10 -/

/-- The display transform keeps the message id. -/
theorem displayTransform_id (m : ChatMsg) : (displayTransform m).id = m.id := by
  unfold displayTransform
  repeat' split
  all_goals rfl

/-- C10: with distinct message ids, every message whose string content starts
with `TEXT_ONLY:` is excluded entirely from the chat display list, while every
other message is retained (transformed, with its id). -/
theorem text_only_hidden_from_chat (messages : List ChatMsg)
    (hids : (messages.map ChatMsg.id).Nodup) :
    ∀ m ∈ messages,
      (isTextOnlyMsg m = true → ∀ d ∈ displayMessages messages, d.id ≠ m.id) ∧
      (isTextOnlyMsg m = false → ∃ d ∈ displayMessages messages, d.id = m.id) := by
  intro m hm
  constructor
  · intro hto d hd hid
    unfold displayMessages at hd
    rcases List.mem_map.mp hd with ⟨m', hm'f, rfl⟩
    rcases List.mem_filter.mp hm'f with ⟨hm'mem, hm'keep⟩
    rw [displayTransform_id] at hid
    have heq : m' = m := List.inj_on_of_nodup_map hids hm'mem hm hid
    subst heq
    rw [hto] at hm'keep
    cases hm'keep
  · intro hto
    refine ⟨displayTransform m, ?_, displayTransform_id m⟩
    unfold displayMessages
    exact List.mem_map.mpr ⟨m, List.mem_filter.mpr ⟨hm, by simp [hto]⟩, rfl⟩

/-- Messages for the C10 witness: one diagnostic chunk, one ordinary message. -/
def c10msgs : List ChatMsg :=
  [⟨false, 0, Json.str (chars "TEXT_ONLY:x")⟩, ⟨false, 1, Json.str (chars "hi")⟩]

/-- Witness for C10: the `TEXT_ONLY:` message's id never appears in the
display list; the plain message's id does. -/
theorem text_only_hidden_from_chat_witness :
    (c10msgs.map ChatMsg.id).Nodup ∧
    ((isTextOnlyMsg ⟨false, 0, Json.str (chars "TEXT_ONLY:x")⟩ = true →
        ∀ d ∈ displayMessages c10msgs,
          d.id ≠ (ChatMsg.mk false 0 (Json.str (chars "TEXT_ONLY:x"))).id) ∧
     (isTextOnlyMsg ⟨false, 0, Json.str (chars "TEXT_ONLY:x")⟩ = false →
        ∃ d ∈ displayMessages c10msgs,
          d.id = (ChatMsg.mk false 0 (Json.str (chars "TEXT_ONLY:x"))).id)) :=
  ⟨by decide, text_only_hidden_from_chat c10msgs (by decide) _ (by decide)⟩

/-! ## Claim C8 -/

/-- The spec's example input message. -/
def c8raw : Str := chars "VOICE:Hi|||TEXT:\x7b\"content\":\"**Category:** Brakes\"\x7d"

/-- The example session: the one assistant message `c8raw`. -/
def c8msgs : List ChatMsg := [⟨false, 7, Json.str c8raw⟩]

/-- C8 counterexample: the rendered panel content contains no `Category:` at
all — the header rewrite consumes the colon (and the dedicated
`**Category:**` styling rule can never fire after it) — so no styled
`"Category: Brakes"` block is present as claimed. -/
theorem category_block_cex :
    occurs (chars "Category:") (panelMain (getLatestTextContent [] c8msgs)) = false := by
  decide

/-- C8 as amended: the chat transcript shows exactly `Hi`, and the panel's
formatted content is the generic styled header `Category` (colon consumed by
the header rewrite) followed by ` Brakes`. -/
theorem category_example_rendering :
    displayMessages c8msgs = [⟨false, 7, Json.str (chars "Hi")⟩] ∧
    panelMain (getLatestTextContent [] c8msgs) =
      h3Open ++ chars "Category" ++ h3Close ++ chars " Brakes" := by
  constructor
  · decide
  · decide

/-! ## Helper lemmas for the formatter (claim C6) -/

/-- The scanner changes nothing when the matcher fires at no non-empty suffix. -/
theorem replaceAllF_id (tryM : Str → Option (Str × Str)) :
    ∀ (fuel : Nat) (s : Str), s.length ≤ fuel →
      (∀ t, t <:+ s → t ≠ [] → tryM t = none) → replaceAllF tryM fuel s = s := by
  intro fuel
  induction fuel with
  | zero => intro s _ _; rfl
  | succ f ih =>
    intro s hlen h
    cases s with
    | nil => rfl
    | cons c rest =>
      have hc : tryM (c :: rest) = none := h _ (List.suffix_refl _) (by simp)
      have hrest : replaceAllF tryM f rest = rest :=
        ih rest (by simpa using Nat.le_of_succ_le_succ hlen)
          (fun t ht hne => h t (ht.trans (List.suffix_cons c rest)) hne)
      simp [replaceAllF, hc, hrest]

/-- `replaceAll` identity from suffix-wise non-matching. -/
theorem replaceAll_id (tryM : Str → Option (Str × Str)) (s : Str)
    (h : ∀ t, t <:+ s → t ≠ [] → tryM t = none) : replaceAll tryM s = s :=
  replaceAllF_id tryM s.length s le_rfl h

/-- A literal matcher cannot fire on a head character differing from its
pattern's first character. -/
theorem tryLit_trigger (p0 : Char) (ps rep : Str) (c : Char) (r : Str)
    (h : (p0 == c) = false) : tryLit (p0 :: ps) rep (c :: r) = none := by
  simp [tryLit, List.isPrefixOf, h]

/-- The header matcher cannot fire away from a `*`. -/
theorem tryHeader_trigger (c : Char) (r : Str) (h : ('*' == c) = false) :
    tryHeader (c :: r) = none := by
  have hne : ¬(c = '*') := by
    intro he
    rw [he] at h
    simp at h
  cases r with
  | nil => rfl
  | cons c2 r2 => simp [tryHeader, hne]

/-- The category matcher cannot fire away from a `*`. -/
theorem tryCategory_trigger (c : Char) (r : Str) (h : ('*' == c) = false) :
    tryCategory (c :: r) = none := by
  have hne : ¬('*' = c) := by
    intro he
    rw [← he] at h
    simp at h
  have hcat : catLit = '*' :: chars "*Category:**" := rfl
  unfold tryCategory
  rw [hcat]
  simp [dropPre, hne]

/-- Two different characters never relate by `==` when one falsifies a
decidable class the other satisfies. -/
theorem idChar_ne (c : Char) (h : isIdChar c = true) (d : Char)
    (hd : isIdChar d = false) : (d == c) = false := by
  cases hbeq : d == c with
  | false => rfl
  | true =>
    rw [eq_of_beq hbeq] at hd
    rw [h] at hd
    cases hd

/-- An id character is never case-insensitively a colon. -/
theorem idChar_colon (c : Char) (h : isIdChar c = true) : ciEq ':' c = false := by
  have h58 : (':').toNat = 58 := rfl
  have hne : (':' : Char) = c → False := by
    intro he
    rw [← he] at h
    exact absurd h (by decide)
  cases hval : ciEq ':' c with
  | false => rfl
  | true =>
    exfalso
    unfold ciEq at hval
    unfold isIdChar at h
    simp only [Bool.or_eq_true, Bool.and_eq_true, decide_eq_true_eq, beq_iff_eq,
      h58] at hval h
    rcases hval with (hval | hval) | hval
    · exact hne hval
    · omega
    · rcases h with (((h | h) | h) | h) | h <;> omega

/-- Consuming a literal prefix leaves a suffix. -/
theorem dropPreCI_suffix (pat : Str) : ∀ t r, dropPreCI pat t = some r → r <:+ t := by
  induction pat with
  | nil =>
    intro t r h
    simp [dropPreCI] at h
    rw [← h]
  | cons p ps ih =>
    intro t r h
    cases t with
    | nil => simp [dropPreCI] at h
    | cons c cs =>
      unfold dropPreCI at h
      by_cases hci : ciEq p c = true
      · rw [if_pos hci] at h
        exact (ih cs r h).trans (List.suffix_cons c cs)
      · rw [if_neg hci] at h
        cases h

/-- `://` never matches at a run of id characters. -/
theorem dropPreCI_colon_none (r : Str) (h : ∀ c ∈ r, isIdChar c = true) :
    dropPreCI (chars "://") r = none := by
  cases r with
  | nil => rfl
  | cons c cs =>
    have hc := idChar_colon c (h c (by simp))
    have hcl : chars "://" = ':' :: chars "//" := rfl
    rw [hcl]
    simp [dropPreCI, hc]

/-- The URL scheme never matches inside a run of id characters. -/
theorem schemeCI_idchar (t : Str) (h : ∀ c ∈ t, isIdChar c = true) :
    schemeCI t = none := by
  unfold schemeCI
  cases hd : dropPreCI (chars "http") t with
  | none => rfl
  | some r0 =>
    have hr0 : ∀ c ∈ r0, isIdChar c = true :=
      fun c hc => h c ((dropPreCI_suffix _ _ _ hd).subset hc)
    cases r0 with
    | nil => rfl
    | cons c rr =>
      have hcolon1 : dropPreCI (chars "://") rr = none :=
        dropPreCI_colon_none rr (fun x hx => hr0 x (by simp [hx]))
      have hcolon2 : dropPreCI (chars "://") (c :: rr) = none := dropPreCI_colon_none _ hr0
      by_cases hs : ciEq 's' c = true <;> simp [hs, hcolon1, hcolon2]

/-- The YouTube-excluding link matcher needs a scheme. -/
theorem tryLinkNY_none_of_scheme (t : Str) (h : schemeCI t = none) :
    tryLinkNY t = none := by
  unfold tryLinkNY
  rw [h]

/-- A suffix of an appended list is a suffix of the right part or extends it
by a suffix of the left part. -/
theorem suffix_append_split {α : Type} {t a b : List α} (h : t <:+ a ++ b) :
    t <:+ b ∨ ∃ a', a' <:+ a ∧ t = a' ++ b := by
  rcases h with ⟨p, hp⟩
  rcases List.append_eq_append_iff.mp hp with ⟨a', ha1, ha2⟩ | ⟨c, _, hc2⟩
  · exact Or.inr ⟨a', ⟨p, ha1.symm⟩, ha2⟩
  · exact Or.inl ⟨c, hc2.symm⟩

/-- A pattern with a character missing from `s` does not occur in `s`. -/
theorem occurs_false (pat s : Str) (d : Char) (hd : d ∈ pat) (hs : d ∉ s) :
    occurs pat s = false := by
  induction s with
  | nil =>
    cases pat with
    | nil => cases hd
    | cons p ps => rfl
  | cons c rest ih =>
    have h1 : pat.isPrefixOf (c :: rest) = false := by
      cases hpre : pat.isPrefixOf (c :: rest) with
      | false => rfl
      | true =>
        exact absurd ((List.isPrefixOf_iff_prefix.mp hpre).subset hd) hs
    simp only [occurs, h1, Bool.false_or]
    exact ih (fun hmem => hs (by simp [hmem]))

/-- Character facts over an appended literal-plus-id string. -/
theorem mem_append_fact (P : Char → Bool) (a b : Str)
    (ha : ∀ c ∈ a, P c = false) (hb : ∀ c ∈ b, P c = false) :
    ∀ c ∈ a ++ b, P c = false := by
  intro c hc
  rcases List.mem_append.mp hc with h | h
  · exact ha c h
  · exact hb c h

/-- The escape fixups change nothing without a backslash. -/
theorem escapePass_id (u : Str) (h : ∀ c ∈ u, ('\\' == c) = false) :
    escapePass u = u := by
  have key : ∀ (pat rep ps : Str), pat = '\\' :: ps → replaceAll (tryLit pat rep) u = u := by
    intro pat rep ps hpat
    refine replaceAll_id _ u (fun t ht hne => ?_)
    cases t with
    | nil => exact absurd rfl hne
    | cons c r =>
      rw [hpat]
      exact tryLit_trigger '\\' ps rep c r (h c (ht.subset (by simp)))
  unfold escapePass
  rw [key (chars "\\n") ['\n'] (chars "n") rfl,
    key (chars "\\u2022") bulletMoji (chars "u2022") rfl,
    key (chars "\\\"") ['"'] (chars "\"") rfl,
    key (chars "\\\\") ['\\'] (chars "\\") rfl]

/-- The header pass changes nothing without a `*`. -/
theorem headerPass_id (u : Str) (h : ∀ c ∈ u, ('*' == c) = false) :
    replaceAll tryHeader u = u := by
  refine replaceAll_id _ u (fun t ht hne => ?_)
  cases t with
  | nil => exact absurd rfl hne
  | cons c r => exact tryHeader_trigger c r (h c (ht.subset (by simp)))

/-- The category pass changes nothing without a `*`. -/
theorem categoryPass_id (u : Str) (h : ∀ c ∈ u, ('*' == c) = false) :
    replaceAll tryCategory u = u := by
  refine replaceAll_id _ u (fun t ht hne => ?_)
  cases t with
  | nil => exact absurd rfl hne
  | cons c r => exact tryCategory_trigger c r (h c (ht.subset (by simp)))

/-- The newline passes change nothing without a newline. -/
theorem newlinePass_id (rep : Str) (ps : Str) (pat : Str) (hpat : pat = '\n' :: ps)
    (u : Str) (h : ∀ c ∈ u, ('\n' == c) = false) :
    replaceAll (tryLit pat rep) u = u := by
  refine replaceAll_id _ u (fun t ht hne => ?_)
  cases t with
  | nil => exact absurd rfl hne
  | cons c r =>
    rw [hpat]
    exact tryLit_trigger '\n' ps rep c r (h c (ht.subset (by simp)))

/-- The bullet pass copies everything when the bullet lead-in is absent. -/
theorem bulletPassF_id :
    ∀ (fuel : Nat) (st : Bool) (s : Str), s.length ≤ fuel →
      (∀ c ∈ s, ('â' == c) = false) → bulletPassF fuel st s = s := by
  intro fuel
  induction fuel with
  | zero => intro st s _ _; rfl
  | succ f ih =>
    intro st s hlen h
    cases s with
    | nil => cases st <;> rfl
    | cons c rest =>
      have hpre : bulletMark.isPrefixOf (c :: rest) = false := by
        have hb : bulletMark = 'â' :: ('€' :: '¢' :: [' ']) := rfl
        rw [hb]
        simp [List.isPrefixOf, h c (by simp)]
      have hrest : bulletPassF f (isLineTerm c) rest = rest :=
        ih (isLineTerm c) rest (by simpa using Nat.le_of_succ_le_succ hlen)
          (fun x hx => h x (by simp [hx]))
      cases st <;> simp [bulletPassF, hpre, hrest]

/-- The bullet pass on bullet-free text. -/
theorem bulletPass_id (s : Str) (h : ∀ c ∈ s, ('â' == c) = false) :
    bulletPass s = s :=
  bulletPassF_id s.length true s le_rfl h

/-- The in-text YouTube URL literal `https://www.youtube.com/watch?v=`. -/
def watchLit : Str := chars "https://www.youtube.com/watch?v="

/-- The in-text YouTube URL literal `https://youtu.be/`. -/
def shortLit : Str := chars "https://youtu.be/"

/-- The YouTube-excluding link matcher fires at no non-empty suffix of a
`watch?v=` URL: position 0 is rejected by the lookahead, and every other
suffix fails the scheme. -/
theorem tryLinkNY_cover_watch (id_ : Str) (hid : ∀ c ∈ id_, isIdChar c = true) :
    ∀ t, t <:+ (watchLit ++ id_) → t ≠ [] → tryLinkNY t = none := by
  intro t ht _
  rcases suffix_append_split ht with hsuf | ⟨lsuf, hls, rfl⟩
  · exact tryLinkNY_none_of_scheme t (schemeCI_idchar t (fun c hc => hid c (hsuf.subset hc)))
  · have hmem : lsuf ∈ watchLit.tails := (List.mem_tails lsuf watchLit).mpr hls
    fin_cases hmem <;>
      first
        | rfl
        | (simp only [List.nil_append]
           exact tryLinkNY_none_of_scheme _ (schemeCI_idchar _ hid))

/-- Same coverage for a `youtu.be/` URL. -/
theorem tryLinkNY_cover_short (id_ : Str) (hid : ∀ c ∈ id_, isIdChar c = true) :
    ∀ t, t <:+ (shortLit ++ id_) → t ≠ [] → tryLinkNY t = none := by
  intro t ht _
  rcases suffix_append_split ht with hsuf | ⟨lsuf, hls, rfl⟩
  · exact tryLinkNY_none_of_scheme t (schemeCI_idchar t (fun c hc => hid c (hsuf.subset hc)))
  · have hmem : lsuf ∈ shortLit.tails := (List.mem_tails lsuf shortLit).mpr hls
    fin_cases hmem <;>
      first
        | rfl
        | (simp only [List.nil_append]
           exact tryLinkNY_none_of_scheme _ (schemeCI_idchar _ hid))

/-- With a structured video list present, the formatter is the identity on a
string free of backslashes, stars, newlines, bullet lead-ins, and link
matches. -/
theorem format_true_id (u : Str)
    (hbs : ∀ c ∈ u, ('\\' == c) = false)
    (hst : ∀ c ∈ u, ('*' == c) = false)
    (hnl : ∀ c ∈ u, ('\n' == c) = false)
    (hmj : ∀ c ∈ u, ('â' == c) = false)
    (hlnk : ∀ t, t <:+ u → t ≠ [] → tryLinkNY t = none) :
    formatMainContent u true = u := by
  have hdef : formatMainContent u true =
      replaceAll (tryLit (chars "\n") brTag) (replaceAll (tryLit (chars "\n\n") nnDiv)
        (replaceAll tryLinkNY
          (bulletPass (replaceAll tryCategory (replaceAll tryHeader (escapePass u)))))) := rfl
  rw [hdef, escapePass_id u hbs, headerPass_id u hst, categoryPass_id u hst,
    bulletPass_id u hmj, replaceAll_id _ u hlnk,
    newlinePass_id nnDiv (chars "\n") (chars "\n\n") rfl u hnl,
    newlinePass_id brTag (chars "") (chars "\n") rfl u hnl]

/-! ## Claim C6 -/

/-- C6: with a non-empty sanitized video list (`hasStructuredVideos = true`)
the formatter synthesizes no inline video-preview block from an in-text
YouTube URL and leaves the URL out of hyperlink conversion — for every id the
formatted output of both URL forms is exactly the input, which contains no
preview-block marker.  With an empty list (`hasStructuredVideos = false`) the
YouTube-embed pass, which the formatter then applies (final conjunct, its
pipeline equation), converts the URL into the inline video-preview block
(shown at the id `abc123`), whose text carries the `Watch Diagnostic Video`
marker. -/
theorem inline_video_exclusion :
    ∀ id_ : Str, id_ ≠ [] → (∀ c ∈ id_, isIdChar c = true) →
      formatMainContent (watchLit ++ id_) true = watchLit ++ id_ ∧
      formatMainContent (shortLit ++ id_) true = shortLit ++ id_ ∧
      occurs wdvMark (watchLit ++ id_) = false ∧
      occurs wdvMark (shortLit ++ id_) = false ∧
      replaceAll tryYt (watchLit ++ chars "abc123") =
        ytBlock (watchLit ++ chars "abc123") (chars "abc123") ∧
      replaceAll tryYt (shortLit ++ chars "abc123") =
        ytBlock (shortLit ++ chars "abc123") (chars "abc123") ∧
      occurs wdvMark (ytBlock (watchLit ++ chars "abc123") (chars "abc123")) = true ∧
      (∀ content : Str, formatMainContent content false =
        replaceAll (tryLit (chars "\n") brTag) (replaceAll (tryLit (chars "\n\n") nnDiv)
          (replaceAll tryLinkAll (replaceAll tryYt
            (bulletPass (replaceAll tryCategory (replaceAll tryHeader (escapePass content)))))))) := by
  intro id_ _ hid
  have hidq : ∀ (d : Char), isIdChar d = false → ∀ c ∈ id_, (d == c) = false :=
    fun d hd c hc => idChar_ne c (hid c hc) d hd
  have hspace : ∀ u : Str, (' ' ∉ u) → occurs wdvMark u = false := fun u hu =>
    occurs_false wdvMark u ' ' (by decide) hu
  have hspw : ' ' ∉ watchLit ++ id_ := by
    intro hmem
    rcases List.mem_append.mp hmem with hmem | hmem
    · exact absurd hmem (by decide)
    · exact absurd (hid ' ' hmem) (by decide)
  have hsps : ' ' ∉ shortLit ++ id_ := by
    intro hmem
    rcases List.mem_append.mp hmem with hmem | hmem
    · exact absurd hmem (by decide)
    · exact absurd (hid ' ' hmem) (by decide)
  refine ⟨?_, ?_, hspace _ hspw, hspace _ hsps, eq_of_beq (by rfl), eq_of_beq (by rfl),
    by decide, fun content => rfl⟩
  · exact format_true_id _
      (mem_append_fact _ _ _ (by decide) (hidq '\\' (by decide)))
      (mem_append_fact _ _ _ (by decide) (hidq '*' (by decide)))
      (mem_append_fact _ _ _ (by decide) (hidq '\n' (by decide)))
      (mem_append_fact _ _ _ (by decide) (hidq 'â' (by decide)))
      (tryLinkNY_cover_watch id_ hid)
  · exact format_true_id _
      (mem_append_fact _ _ _ (by decide) (hidq '\\' (by decide)))
      (mem_append_fact _ _ _ (by decide) (hidq '*' (by decide)))
      (mem_append_fact _ _ _ (by decide) (hidq '\n' (by decide)))
      (mem_append_fact _ _ _ (by decide) (hidq 'â' (by decide)))
      (tryLinkNY_cover_short id_ hid)

/-- Witness for C6 at the id `abc123`. -/
theorem inline_video_exclusion_witness :
    (chars "abc123" ≠ ([] : Str)) ∧ (∀ c ∈ chars "abc123", isIdChar c = true) ∧
    (formatMainContent (watchLit ++ chars "abc123") true = watchLit ++ chars "abc123" ∧
     formatMainContent (shortLit ++ chars "abc123") true = shortLit ++ chars "abc123" ∧
     occurs wdvMark (watchLit ++ chars "abc123") = false ∧
     occurs wdvMark (shortLit ++ chars "abc123") = false ∧
     replaceAll tryYt (watchLit ++ chars "abc123") =
       ytBlock (watchLit ++ chars "abc123") (chars "abc123") ∧
     replaceAll tryYt (shortLit ++ chars "abc123") =
       ytBlock (shortLit ++ chars "abc123") (chars "abc123") ∧
     occurs wdvMark (ytBlock (watchLit ++ chars "abc123") (chars "abc123")) = true ∧
     (∀ content : Str, formatMainContent content false =
       replaceAll (tryLit (chars "\n") brTag) (replaceAll (tryLit (chars "\n\n") nnDiv)
         (replaceAll tryLinkAll (replaceAll tryYt
           (bulletPass (replaceAll tryCategory (replaceAll tryHeader (escapePass content))))))))) :=
  ⟨by decide, by decide, inline_video_exclusion (chars "abc123") (by decide) (by decide)⟩

end DiagFront
